import Mathlib

/-!
Verification of the stable-fs core: a shallow embedding of the
file-system facade (`src/fs.rs`) and the persisted record types
(`src/storage/types.rs`).

Machine integers (u64 node ids, sizes, u32 entry indices, u8 bytes) are
modelled as `Nat`; no claim exercises integer overflow.  Fallible Rust
functions returning `Result<T, Error>` become `Except Error T`; methods
taking `&mut self` additionally return the successor state, so that
mutations performed before an early `?` return are kept, exactly as in
the Rust borrow of `&mut self.storage`.

The repository ships only the facade and the record types; the runtime
modules (`runtime/dir.rs`, `runtime/file.rs`, `runtime/fd.rs`), the
`Storage` trait implementation and the `Error` enum are not part of the
given sources.  Definitions for those carry a doc comment starting with
`Modelled from the spec:` and follow the specification text (sections
3, 4.2, 4.3, 4.4, 6 and 7 of the design document).
-/

/-- Modelled from the spec: the error taxonomy of section 7 (`error.rs` is
not among the sources).  `InvalidOffset` stands for the unnamed error kind
of a negative seek target; `Unsupported` stands for the unrecoverable
abort on symbolic-link opens (`unimplemented!` in the reference code),
which section 7 asks to be treated as an explicit unsupported-operation
result. -/
inductive Error where
  | NotFound
  | InvalidFileType
  | NameTooLong
  | FileAlreadyExists
  | InvalidOffset
  | Unsupported
deriving DecidableEq

/-- From `types.rs`: `pub const FILE_CHUNK_SIZE: usize = 4096`. -/
def FILE_CHUNK_SIZE : Nat := 4096

/-- From `types.rs`: `pub const MAX_FILE_NAME: usize = 255`. -/
def MAX_FILE_NAME : Nat := 255

/-- From `types.rs`: the type of a node (`FileType`). -/
inductive FileType where
  | Directory
  | RegularFile
  | SymbolicLink
deriving DecidableEq

/-- From `types.rs`: the time stats of a node (`Times`). -/
structure Times where
  accessed : Nat
  modified : Nat
  created : Nat
deriving DecidableEq

/-- From `types.rs`: per-node metadata (`Metadata`).  `node` ids and
entry indices are `Nat`. -/
structure Metadata where
  node : Nat
  file_type : FileType
  link_count : Nat
  size : Nat
  times : Times
  first_dir_entry : Option Nat
  last_dir_entry : Option Nat
deriving DecidableEq

/-- From `types.rs`: a file or directory name (`FileName`), a fixed
255-byte buffer (`bytes`, here a list that is kept at length 255) plus
an explicit `length`. -/
structure FileName where
  length : Nat
  bytes : List Nat
deriving DecidableEq

/-- From `types.rs`: `FileName::new` — rejects names longer than
`MAX_FILE_NAME` with `NameTooLong`, otherwise zero-pads the buffer. -/
def FileName.new (name : List Nat) : Except Error FileName :=
  if name.length > MAX_FILE_NAME then .error .NameTooLong
  else .ok ⟨name.length, name ++ List.replicate (MAX_FILE_NAME - name.length) 0⟩

/-- From `types.rs`: one directory entry (`DirEntry`). -/
structure DirEntry where
  name : FileName
  node : Nat
  next_entry : Option Nat
  prev_entry : Option Nat
deriving DecidableEq

/-- Modelled from the spec: per-descriptor stat flags (`FdStat`, from
`runtime/types.rs` which is not among the sources).  The claims treat the
value as opaque, so it is a single abstract field. -/
structure FdStat where
  flags : Nat
deriving DecidableEq

/-- Modelled from the spec: the open-flags bitset CREATE | EXCLUSIVE |
DIRECTORY | TRUNCATE of section 6 (`OpenFlags` in `runtime/types.rs`,
not among the sources). -/
structure OpenFlags where
  create : Bool
  directory : Bool
  exclusive : Bool
  trunc : Bool
deriving DecidableEq

/-- Modelled from the spec: seek origins Start | Current | End. -/
inductive Whence where
  | Start
  | Current
  | End
deriving DecidableEq

/-- Modelled from the spec: an open regular-file handle
(`runtime/file.rs`): the node, the persisted stream cursor and the
per-descriptor stat. -/
structure File where
  node : Nat
  cursor : Nat
  stat : FdStat
deriving DecidableEq

/-- Modelled from the spec: an open directory handle
(`runtime/dir.rs`): the node and the per-descriptor stat. -/
structure Dir where
  node : Nat
  stat : FdStat
deriving DecidableEq

/-- From `runtime/fd.rs` (used by `fs.rs`): a descriptor-table slot
holding either an open file or an open directory. -/
inductive FdEntry where
  | File (file : File)
  | Dir (dir : Dir)
deriving DecidableEq

/-- Modelled from the spec: the storage contract of section 6.
`metadata` is the per-node metadata record store; `direntries` lists
each directory's entry records as (index, record) pairs in list order;
`chunks` gives the byte at (node, chunk index, offset in chunk), with
absent chunks reading as zero; `next_node` / `next_dir_entry_index` are
the monotone id allocators. -/
structure Storage where
  root : Nat
  metadata : Nat → Option Metadata
  direntries : Nat → List (Nat × DirEntry)
  chunks : Nat → Nat → Nat → Nat
  next_node : Nat
  next_dir_entry_index : Nat

/-- Modelled from the spec: `get_metadata(node) -> Result<Metadata, NotFound>`. -/
def Storage.get_metadata (st : Storage) (node : Nat) : Except Error Metadata :=
  match st.metadata node with
  | none => .error .NotFound
  | some md => .ok md

/-- Modelled from the spec: `put_metadata(node, metadata)` — full-record
replace. -/
def Storage.put_metadata (st : Storage) (node : Nat) (md : Metadata) : Storage :=
  { st with metadata := fun n => if n = node then some md else st.metadata n }

/-- Modelled from the spec: write one byte of file content at an
absolute position, addressed as chunk `pos / FILE_CHUNK_SIZE`, offset
`pos % FILE_CHUNK_SIZE`. -/
def Storage.write_byte (st : Storage) (node pos v : Nat) : Storage :=
  { st with chunks := fun nd ci co =>
      if nd = node ∧ ci = pos / FILE_CHUNK_SIZE ∧ co = pos % FILE_CHUNK_SIZE then v
      else st.chunks nd ci co }

/-- Modelled from the spec: write a byte sequence starting at an
absolute position; a transfer spanning several chunks is the succession
of the per-byte chunk accesses. -/
def Storage.write_bytes (st : Storage) (node pos : Nat) : List Nat → Storage
  | [] => st
  | b :: bs => Storage.write_bytes (st.write_byte node pos b) node (pos + 1) bs

/-- Modelled from the spec: release all content chunks of a node (used
by truncate); released chunks read back as zero. -/
def Storage.clear_chunks (st : Storage) (node : Nat) : Storage :=
  { st with chunks := fun nd ci co => if nd = node then 0 else st.chunks nd ci co }

/-- From `runtime/fd.rs` (used by `fs.rs`): the descriptor table.
Modelled from the spec: an association list of open slots plus the
monotone next-fd allocator of section 4.4. -/
structure FdTable where
  entries : List (Nat × FdEntry)
  next_fd : Nat

/-- Helper: first association-list hit for a descriptor. -/
def fdLookup : List (Nat × FdEntry) → Nat → Option FdEntry
  | [], _ => none
  | (k, e) :: rest, fd => if k = fd then some e else fdLookup rest fd

/-- Modelled from the spec: `FdTable::get`. -/
def FdTable.get (t : FdTable) (fd : Nat) : Option FdEntry :=
  fdLookup t.entries fd

/-- Modelled from the spec: `FdTable::open` allocates the next unused,
monotonically increasing fd and stores the tagged handle. -/
def FdTable.open (t : FdTable) (e : FdEntry) : FdTable × Nat :=
  (⟨(t.next_fd, e) :: t.entries, t.next_fd + 1⟩, t.next_fd)

/-- Replacement of one slot's handle, keyed by descriptor. -/
def updEntry (fd : Nat) (e : FdEntry) (p : Nat × FdEntry) : Nat × FdEntry :=
  if p.1 = fd then (p.1, e) else p

/-- Modelled from the spec: `FdTable::update` replaces the handle stored
at a descriptor, leaving every other slot alone. -/
def FdTable.update (t : FdTable) (fd : Nat) (e : FdEntry) : FdTable :=
  { t with entries := t.entries.map (updEntry fd e) }

/-- Modelled from the spec: `FdTable::close` removes the slot, failing
with `NotFound` if absent. -/
def FdTable.close (t : FdTable) (fd : Nat) : Except Error FdTable :=
  match t.get fd with
  | none => .error .NotFound
  | some _ => .ok { t with entries := t.entries.filter fun p => p.1 != fd }

/-- Well-formedness of a descriptor table: every open slot is numbered
below the allocator, so freshly allocated fds are really fresh. -/
def FdTable.WF (t : FdTable) : Prop :=
  ∀ p ∈ t.entries, p.1 < t.next_fd

instance (t : FdTable) : Decidable t.WF := by
  unfold FdTable.WF; infer_instance

/-- Name comparison used by directory lookups.  Modelled from the spec:
equality of a stored `FileName` with a path is length plus byte
comparison over the first `length` bytes. -/
def fileNameMatches (n : FileName) (path : List Nat) : Bool :=
  n.length == path.length && n.bytes.take n.length == path

/-- Predicate on an (index, entry) pair: the entry carries the name. -/
def matchesPath (path : List Nat) (p : Nat × DirEntry) : Bool :=
  fileNameMatches p.2.name path

/-- Modelled from the spec: `Dir::new` builds a directory handle over an
existing node. -/
def Dir.new (node : Nat) (stat : FdStat) (st : Storage) : Except Error Dir :=
  match st.get_metadata node with
  | .error e => .error e
  | .ok md =>
    if md.file_type = .Directory then .ok ⟨node, stat⟩ else .error .InvalidFileType

/-- Modelled from the spec: `File::new` builds a file handle with cursor
zero over an existing regular-file node. -/
def File.new (node : Nat) (stat : FdStat) (st : Storage) : Except Error File :=
  match st.get_metadata node with
  | .error e => .error e
  | .ok md =>
    if md.file_type = .RegularFile then .ok ⟨node, 0, stat⟩ else .error .InvalidFileType

/-- Modelled from the spec: `Dir::find_node` — linear scan of the
directory's entry records comparing names, `NotFound` at the end. -/
def Dir.find_node (d : Dir) (path : List Nat) (st : Storage) : Except Error Nat :=
  match (st.direntries d.node).find? (matchesPath path) with
  | some p => .ok p.2.node
  | none => .error .NotFound

/-- Modelled from the spec: `Dir::get_entry` — direct record fetch by
entry index. -/
def Dir.get_entry (d : Dir) (index : Nat) (st : Storage) : Except Error DirEntry :=
  match (st.direntries d.node).find? (fun p => p.1 == index) with
  | some p => .ok p.2
  | none => .error .NotFound

/-- Helper for tail append: point the old tail entry's `next_entry` at
the new index. -/
def setTailNext (idx : Nat) (lastIdx : Nat) (l : List (Nat × DirEntry)) : List (Nat × DirEntry) :=
  l.map fun p => if p.1 = lastIdx then (p.1, { p.2 with next_entry := some idx }) else p

/-- Modelled from the spec: the creation logic shared by
`Dir::create_file` and `Dir::create_dir` — reject a too-long name,
reject an existing name with `FileAlreadyExists`, then allocate a fresh
node with metadata of the requested type and append a fresh entry at the
tail of the parent's list (updating the old tail's `next_entry` and the
parent metadata's head/tail indices).  All checks precede any mutation. -/
def Dir.mk_child (d : Dir) (ft : FileType) (path : List Nat) (st : Storage) :
    Except Error Nat × Storage :=
  match FileName.new path with
  | .error e => (.error e, st)
  | .ok nm =>
    if (st.direntries d.node).any (matchesPath path) then (.error .FileAlreadyExists, st)
    else
      match st.metadata d.node with
      | none => (.error .NotFound, st)
      | some pmd =>
        let node := st.next_node
        let idx := st.next_dir_entry_index
        let entry : DirEntry := ⟨nm, node, none, pmd.last_dir_entry⟩
        let relinked :=
          match pmd.last_dir_entry with
          | some lastIdx => setTailNext idx lastIdx (st.direntries d.node)
          | none => st.direntries d.node
        let pmd' := { pmd with
          first_dir_entry := some (pmd.first_dir_entry.getD idx),
          last_dir_entry := some idx }
        let childMd : Metadata := ⟨node, ft, 1, 0, ⟨0, 0, 0⟩, none, none⟩
        let st' : Storage :=
          { st with
            metadata := fun n =>
              if n = node then some childMd
              else if n = d.node then some pmd'
              else st.metadata n
            direntries := fun n =>
              if n = d.node then relinked ++ [(idx, entry)] else st.direntries n
            next_node := node + 1
            next_dir_entry_index := idx + 1 }
        (.ok node, st')

/-- Modelled from the spec: `Dir::create_file` — create a regular-file
child and return the open handle for it. -/
def Dir.create_file (d : Dir) (path : List Nat) (stat : FdStat) (st : Storage) :
    Except Error File × Storage :=
  match d.mk_child .RegularFile path st with
  | (.error e, st') => (.error e, st')
  | (.ok node, st') => (.ok ⟨node, 0, stat⟩, st')

/-- Modelled from the spec: `Dir::create_dir` — create a directory child
and return the open handle for it. -/
def Dir.create_dir (d : Dir) (path : List Nat) (stat : FdStat) (st : Storage) :
    Except Error Dir × Storage :=
  match d.mk_child .Directory path st with
  | (.error e, st') => (.error e, st')
  | (.ok node, st') => (.ok ⟨node, stat⟩, st')

/-- Modelled from the spec: `Dir::rm_entry` — locate the entry by name
(`NotFound` otherwise), relink its neighbours and the parent's head/tail
indices, drop the record and decrement or remove the target node's
metadata.  The lookup precedes every mutation. -/
def Dir.rm_entry (d : Dir) (path : List Nat) (st : Storage) :
    Except Error Unit × Storage :=
  match st.metadata d.node with
  | none => (.error .NotFound, st)
  | some pmd =>
    match (st.direntries d.node).find? (matchesPath path) with
    | none => (.error .NotFound, st)
    | some (idx, entry) =>
      let remaining := ((st.direntries d.node).filter fun p => p.1 != idx).map fun p =>
        if some p.1 = entry.prev_entry then (p.1, { p.2 with next_entry := entry.next_entry })
        else if some p.1 = entry.next_entry then (p.1, { p.2 with prev_entry := entry.prev_entry })
        else p
      let pmd' := { pmd with
        first_dir_entry := if pmd.first_dir_entry = some idx then entry.next_entry
                           else pmd.first_dir_entry
        last_dir_entry := if pmd.last_dir_entry = some idx then entry.prev_entry
                          else pmd.last_dir_entry }
      let st' : Storage :=
        { st with
          metadata := fun n =>
            if n = entry.node then
              match st.metadata entry.node with
              | some tmd => if tmd.link_count ≤ 1 then none
                            else some { tmd with link_count := tmd.link_count - 1 }
              | none => none
            else if n = d.node then some pmd'
            else st.metadata n
          direntries := fun n => if n = d.node then remaining else st.direntries n }
      (.ok (), st')

/-- Modelled from the spec: `File::read_with_offset` — chunked read at
an absolute offset; stops at the current size, never erring at
end-of-file; does not touch the persisted cursor. -/
def File.read_with_offset (f : File) (offset len : Nat) (st : Storage) :
    Except Error (List Nat) :=
  match st.metadata f.node with
  | none => .error .NotFound
  | some md =>
    let n := min len (md.size - offset)
    .ok ((List.range n).map fun k =>
      st.chunks f.node ((offset + k) / FILE_CHUNK_SIZE) ((offset + k) % FILE_CHUNK_SIZE))

/-- Modelled from the spec: `File::read_with_cursor` — reads at the
stream cursor and advances it by the bytes transferred. -/
def File.read_with_cursor (f : File) (len : Nat) (st : Storage) :
    Except Error (List Nat × File) :=
  match f.read_with_offset f.cursor len st with
  | .error e => .error e
  | .ok data => .ok (data, { f with cursor := f.cursor + data.length })

/-- Modelled from the spec: `File::write_with_offset` — chunked write at
an absolute offset, possibly extending the size; the persisted cursor is
untouched. -/
def File.write_with_offset (f : File) (offset : Nat) (src : List Nat) (st : Storage) :
    Except Error Nat × Storage :=
  match st.metadata f.node with
  | none => (.error .NotFound, st)
  | some md =>
    let st' := st.write_bytes f.node offset src
    (.ok src.length,
     st'.put_metadata f.node { md with size := max md.size (offset + src.length) })

/-- Modelled from the spec: `File::write_with_cursor` — writes at the
stream cursor and advances it by the bytes transferred. -/
def File.write_with_cursor (f : File) (src : List Nat) (st : Storage) :
    Except Error (Nat × File) × Storage :=
  match f.write_with_offset f.cursor src st with
  | (.error e, st') => (.error e, st')
  | (.ok n, st') => (.ok (n, { f with cursor := f.cursor + n }), st')

/-- Modelled from the spec: `File::seek` — computes the target from
Start, Current or End (End fetches the size from metadata) and fails
rather than clamps on a negative target. -/
def File.seek (f : File) (delta : Int) (whence : Whence) (st : Storage) :
    Except Error (Nat × File) :=
  match whence with
  | .Start =>
    if delta < 0 then .error .InvalidOffset
    else .ok (delta.toNat, { f with cursor := delta.toNat })
  | .Current =>
    let np := (f.cursor : Int) + delta
    if np < 0 then .error .InvalidOffset
    else .ok (np.toNat, { f with cursor := np.toNat })
  | .End =>
    match st.metadata f.node with
    | none => .error .NotFound
    | some md =>
      let np := (md.size : Int) + delta
      if np < 0 then .error .InvalidOffset
      else .ok (np.toNat, { f with cursor := np.toNat })

/-- Modelled from the spec: `File::tell` — the current cursor, no
mutation. -/
def File.tell (f : File) : Nat := f.cursor

/-- Modelled from the spec: `File::truncate` — reset the size to zero
and release the content chunks. -/
def File.truncate (f : File) (st : Storage) : Except Error Unit × Storage :=
  match st.metadata f.node with
  | none => (.error .NotFound, st)
  | some md =>
    (.ok (), (st.put_metadata f.node { md with size := 0 }).clear_chunks f.node)

/-- From `fs.rs`: the `FileSystem` facade state — root fd, descriptor
table and storage. -/
structure FileSystem where
  root_fd : Nat
  fd_table : FdTable
  storage : Storage

/-- From `fs.rs` lines 52-58: `get_node` — the node behind either handle
kind, `NotFound` for an unknown fd. -/
def FileSystem.get_node (fs : FileSystem) (fd : Nat) : Except Error Nat :=
  match fs.fd_table.get fd with
  | some (.File file) => .ok file.node
  | some (.Dir dir) => .ok dir.node
  | none => .error .NotFound

/-- From `fs.rs` lines 60-66: `get_file` — clone of the open file,
`InvalidFileType` for a directory slot, `NotFound` for an unknown fd. -/
def FileSystem.get_file (fs : FileSystem) (fd : Nat) : Except Error File :=
  match fs.fd_table.get fd with
  | some (.File file) => .ok file
  | some (.Dir _) => .error .InvalidFileType
  | none => .error .NotFound

/-- From `fs.rs` lines 68-70: `put_file`. -/
def FileSystem.put_file (fs : FileSystem) (fd : Nat) (file : File) : FileSystem :=
  { fs with fd_table := fs.fd_table.update fd (.File file) }

/-- From `fs.rs` lines 72-78: `get_dir`. -/
def FileSystem.get_dir (fs : FileSystem) (fd : Nat) : Except Error Dir :=
  match fs.fd_table.get fd with
  | some (.Dir dir) => .ok dir
  | some (.File _) => .error .InvalidFileType
  | none => .error .NotFound

/-- From `fs.rs` lines 84-86: `put_dir`. -/
def FileSystem.put_dir (fs : FileSystem) (fd : Nat) (dir : Dir) : FileSystem :=
  { fs with fd_table := fs.fd_table.update fd (.Dir dir) }

/-- From `fs.rs` lines 80-82: `get_direntry`. -/
def FileSystem.get_direntry (fs : FileSystem) (fd : Nat) (index : Nat) :
    Except Error DirEntry :=
  match fs.get_dir fd with
  | .error e => .error e
  | .ok dir => dir.get_entry index fs.storage

/-- From `fs.rs` lines 88-93: `read` — cursor read into a destination
buffer of the given length; the returned list is the transferred bytes
(its length is the returned `read_size`). -/
def FileSystem.read (fs : FileSystem) (fd : Nat) (len : Nat) :
    Except Error (List Nat) × FileSystem :=
  match fs.get_file fd with
  | .error e => (.error e, fs)
  | .ok file =>
    match file.read_with_cursor len fs.storage with
    | .error e => (.error e, fs)
    | .ok (data, file') => (.ok data, fs.put_file fd file')

/-- From `fs.rs` lines 95-100: `write` — cursor write of the source
bytes, returning the written size. -/
def FileSystem.write (fs : FileSystem) (fd : Nat) (src : List Nat) :
    Except Error Nat × FileSystem :=
  match fs.get_file fd with
  | .error e => (.error e, fs)
  | .ok file =>
    match file.write_with_cursor src fs.storage with
    | (.error e, st') => (.error e, { fs with storage := st' })
    | (.ok (n, file'), st') => (.ok n, { fs with storage := st' }.put_file fd file')

/-- From `fs.rs` lines 102-112: the `read_vec` buffer loop — successive
cursor reads, accumulating the transferred size, with `?` propagation of
a failure. -/
def readVecGo (f : File) (st : Storage) : List Nat → Except Error (Nat × File)
  | [] => .ok (0, f)
  | len :: rest =>
    match f.read_with_cursor len st with
    | .error e => .error e
    | .ok (data, f') =>
      match readVecGo f' st rest with
      | .error e => .error e
      | .ok (n, f'') => .ok (data.length + n, f'')

/-- From `fs.rs` lines 102-112: `read_vec` (destination buffers are
given by their lengths). -/
def FileSystem.read_vec (fs : FileSystem) (fd : Nat) (dst : List Nat) :
    Except Error Nat × FileSystem :=
  match fs.get_file fd with
  | .error e => (.error e, fs)
  | .ok file =>
    match readVecGo file fs.storage dst with
    | .error e => (.error e, fs)
    | .ok (n, file') => (.ok n, fs.put_file fd file')

/-- From `fs.rs` lines 114-124: the `read_vec_with_offset` loop — every
buffer is read at the same caller-supplied offset, the cursor is never
moved. -/
def readVecOffGo (f : File) (st : Storage) (offset : Nat) : List Nat → Except Error Nat
  | [] => .ok 0
  | len :: rest =>
    match f.read_with_offset offset len st with
    | .error e => .error e
    | .ok data =>
      match readVecOffGo f st offset rest with
      | .error e => .error e
      | .ok n => .ok (data.length + n)

/-- From `fs.rs` lines 114-124: `read_vec_with_offset`. -/
def FileSystem.read_vec_with_offset (fs : FileSystem) (fd : Nat) (dst : List Nat)
    (offset : Nat) : Except Error Nat × FileSystem :=
  match fs.get_file fd with
  | .error e => (.error e, fs)
  | .ok file =>
    match readVecOffGo file fs.storage offset dst with
    | .error e => (.error e, fs)
    | .ok n => (.ok n, fs.put_file fd file)

/-- From `fs.rs` lines 126-136: the `write_vec` buffer loop — successive
cursor writes threading the mutated storage, so transfers already done
for earlier buffers stay applied when a later buffer fails. -/
def writeVecGo (f : File) (st : Storage) : List (List Nat) → Except Error (Nat × File) × Storage
  | [] => (.ok (0, f), st)
  | b :: rest =>
    match f.write_with_cursor b st with
    | (.error e, st') => (.error e, st')
    | (.ok (n, f'), st') =>
      match writeVecGo f' st' rest with
      | (.error e, st'') => (.error e, st'')
      | (.ok (m, f''), st'') => (.ok (n + m, f''), st'')

/-- From `fs.rs` lines 126-136: `write_vec`. -/
def FileSystem.write_vec (fs : FileSystem) (fd : Nat) (src : List (List Nat)) :
    Except Error Nat × FileSystem :=
  match fs.get_file fd with
  | .error e => (.error e, fs)
  | .ok file =>
    match writeVecGo file fs.storage src with
    | (.error e, st') => (.error e, { fs with storage := st' })
    | (.ok (n, file'), st') => (.ok n, { fs with storage := st' }.put_file fd file')

/-- From `fs.rs` lines 138-148: the `write_vec_with_offset` loop — every
buffer is written at the same caller-supplied offset. -/
def writeVecOffGo (f : File) (st : Storage) (offset : Nat) :
    List (List Nat) → Except Error Nat × Storage
  | [] => (.ok 0, st)
  | b :: rest =>
    match f.write_with_offset offset b st with
    | (.error e, st') => (.error e, st')
    | (.ok n, st') =>
      match writeVecOffGo f st' offset rest with
      | (.error e, st'') => (.error e, st'')
      | (.ok m, st'') => (.ok (n + m), st'')

/-- From `fs.rs` lines 138-148: `write_vec_with_offset`. -/
def FileSystem.write_vec_with_offset (fs : FileSystem) (fd : Nat)
    (src : List (List Nat)) (offset : Nat) : Except Error Nat × FileSystem :=
  match fs.get_file fd with
  | .error e => (.error e, fs)
  | .ok file =>
    match writeVecOffGo file fs.storage offset src with
    | (.error e, st') => (.error e, { fs with storage := st' })
    | (.ok n, st') => (.ok n, ({ fs with storage := st' }).put_file fd file)

/-- From `fs.rs` lines 150-155: `seek`. -/
def FileSystem.seek (fs : FileSystem) (fd : Nat) (delta : Int) (whence : Whence) :
    Except Error Nat × FileSystem :=
  match fs.get_file fd with
  | .error e => (.error e, fs)
  | .ok file =>
    match file.seek delta whence fs.storage with
    | .error e => (.error e, fs)
    | .ok (pos, file') => (.ok pos, fs.put_file fd file')

/-- From `fs.rs` lines 157-161: `tell` — fetches the file and returns
the cursor without writing anything back (the state is unchanged). -/
def FileSystem.tell (fs : FileSystem) (fd : Nat) : Except Error Nat × FileSystem :=
  match fs.get_file fd with
  | .error e => (.error e, fs)
  | .ok file => (.ok file.tell, fs)

/-- From `fs.rs` lines 163-166: `close`. -/
def FileSystem.close (fs : FileSystem) (fd : Nat) : Except Error Unit × FileSystem :=
  match fs.fd_table.close fd with
  | .error e => (.error e, fs)
  | .ok t => (.ok (), { fs with fd_table := t })

/-- From `fs.rs` lines 168-171: `metadata`. -/
def FileSystem.metadata (fs : FileSystem) (fd : Nat) : Except Error Metadata :=
  match fs.get_node fd with
  | .error e => .error e
  | .ok node => fs.storage.get_metadata node

/-- From `fs.rs` lines 177-182: `set_metadata`. -/
def FileSystem.set_metadata (fs : FileSystem) (fd : Nat) (md : Metadata) :
    Except Error Unit × FileSystem :=
  match fs.get_node fd with
  | .error e => (.error e, fs)
  | .ok node => (.ok (), { fs with storage := fs.storage.put_metadata node md })

/-- From `fs.rs` lines 184-193: `set_accessed_time` — read-modify-write
of the node's metadata, replacing only `times.accessed`. -/
def FileSystem.set_accessed_time (fs : FileSystem) (fd : Nat) (time : Nat) :
    Except Error Unit × FileSystem :=
  match fs.get_node fd with
  | .error e => (.error e, fs)
  | .ok node =>
    match fs.storage.get_metadata node with
    | .error e => (.error e, fs)
    | .ok md =>
      (.ok (), { fs with storage :=
        fs.storage.put_metadata node { md with times := { md.times with accessed := time } } })

/-- From `fs.rs` lines 195-204: `set_modified_time` — read-modify-write
of the node's metadata, replacing only `times.modified`. -/
def FileSystem.set_modified_time (fs : FileSystem) (fd : Nat) (time : Nat) :
    Except Error Unit × FileSystem :=
  match fs.get_node fd with
  | .error e => (.error e, fs)
  | .ok node =>
    match fs.storage.get_metadata node with
    | .error e => (.error e, fs)
    | .ok md =>
      (.ok (), { fs with storage :=
        fs.storage.put_metadata node { md with times := { md.times with modified := time } } })

/-- From `fs.rs` lines 206-212: `get_stat`. -/
def FileSystem.get_stat (fs : FileSystem) (fd : Nat) : Except Error (FileType × FdStat) :=
  match fs.fd_table.get fd with
  | none => .error .NotFound
  | some (.File file) => .ok (.RegularFile, file.stat)
  | some (.Dir dir) => .ok (.Directory, dir.stat)

/-- From `fs.rs` lines 214-230: `set_stat` — replace the per-descriptor
stat on whichever handle kind is open. -/
def FileSystem.set_stat (fs : FileSystem) (fd : Nat) (stat : FdStat) :
    Except Error Unit × FileSystem :=
  match fs.fd_table.get fd with
  | some (.File file) => (.ok (), fs.put_file fd { file with stat := stat })
  | some (.Dir dir) => (.ok (), fs.put_dir fd { dir with stat := stat })
  | none => (.error .NotFound, fs)

/-- From `fs.rs` lines 232-236: `open_metadata`. -/
def FileSystem.open_metadata (fs : FileSystem) (parent : Nat) (path : List Nat) :
    Except Error Metadata :=
  match fs.get_dir parent with
  | .error e => .error e
  | .ok dir =>
    match dir.find_node path fs.storage with
    | .error e => .error e
    | .ok node => fs.storage.get_metadata node

/-- From `fs.rs` lines 263-287: `open` — an EXCLUSIVE request is
rejected with `FileAlreadyExists` before anything else; otherwise
dispatch on the node's file type, with DIRECTORY rejected on a regular
file and TRUNCATE honoured; the symbolic-link arm is the reference
code's `unimplemented!` abort, modelled as `Unsupported`. -/
def FileSystem.open (fs : FileSystem) (node : Nat) (stat : FdStat) (flags : OpenFlags) :
    Except Error Nat × FileSystem :=
  if flags.exclusive then (.error .FileAlreadyExists, fs)
  else
    match fs.storage.get_metadata node with
    | .error e => (.error e, fs)
    | .ok md =>
      match md.file_type with
      | .Directory =>
        match Dir.new node stat fs.storage with
        | .error e => (.error e, fs)
        | .ok dir =>
          let (t, fd) := fs.fd_table.open (.Dir dir)
          (.ok fd, { fs with fd_table := t })
      | .RegularFile =>
        if flags.directory then (.error .InvalidFileType, fs)
        else
          match File.new node stat fs.storage with
          | .error e => (.error e, fs)
          | .ok file =>
            if flags.trunc then
              match file.truncate fs.storage with
              | (.error e, st') => (.error e, { fs with storage := st' })
              | (.ok _, st') =>
                let (t, fd) := fs.fd_table.open (.File file)
                (.ok fd, { fs with storage := st', fd_table := t })
            else
              let (t, fd) := fs.fd_table.open (.File file)
              (.ok fd, { fs with fd_table := t })
      | .SymbolicLink => (.error .Unsupported, fs)

/-- From `fs.rs` lines 289-297: `create_file` — delegate to the parent
directory's creation logic, open the new file handle, write the parent
handle back. -/
def FileSystem.create_file (fs : FileSystem) (parent : Nat) (path : List Nat)
    (stat : FdStat) : Except Error Nat × FileSystem :=
  match fs.get_dir parent with
  | .error e => (.error e, fs)
  | .ok dir =>
    match dir.create_file path stat fs.storage with
    | (.error e, st') => (.error e, { fs with storage := st' })
    | (.ok child, st') =>
      let (t, child_fd) := fs.fd_table.open (.File child)
      (.ok child_fd, { fs with storage := st', fd_table := t.update parent (.Dir dir) })

/-- From `fs.rs` lines 305-311: `create_dir`. -/
def FileSystem.create_dir (fs : FileSystem) (parent : Nat) (path : List Nat)
    (stat : FdStat) : Except Error Nat × FileSystem :=
  match fs.get_dir parent with
  | .error e => (.error e, fs)
  | .ok dir =>
    match dir.create_dir path stat fs.storage with
    | (.error e, st') => (.error e, { fs with storage := st' })
    | (.ok child, st') =>
      let (t, child_fd) := fs.fd_table.open (.Dir child)
      (.ok child_fd, { fs with storage := st', fd_table := t.update parent (.Dir dir) })

/-- From `fs.rs` lines 299-303: `remove_file` — fetch the parent handle
and delegate to the directory unlink logic; the descriptor table is
never written. -/
def FileSystem.remove_file (fs : FileSystem) (parent : Nat) (path : List Nat) :
    Except Error Unit × FileSystem :=
  match fs.get_dir parent with
  | .error e => (.error e, fs)
  | .ok dir =>
    match dir.rm_entry path fs.storage with
    | (r, st') => (r, { fs with storage := st' })

/-- From `fs.rs` lines 238-261: `open_or_create` — resolve the name
under the parent; on a hit defer to `open`; on `NotFound` fail without
CREATE, reject CREATE+DIRECTORY with `InvalidFileType`, otherwise create
a regular file; any other resolution error is passed through. -/
def FileSystem.open_or_create (fs : FileSystem) (parent : Nat) (path : List Nat)
    (stat : FdStat) (flags : OpenFlags) : Except Error Nat × FileSystem :=
  match fs.get_dir parent with
  | .error e => (.error e, fs)
  | .ok dir =>
    match dir.find_node path fs.storage with
    | .ok node => fs.open node stat flags
    | .error .NotFound =>
      if !flags.create then (.error .NotFound, fs)
      else if flags.directory then (.error .InvalidFileType, fs)
      else fs.create_file parent path stat
    | .error e => (.error e, fs)

/-! ### Serialized record sizes (`types.rs`, `Storable` impls)

`Metadata::to_bytes` and `DirEntry::to_bytes` feed the derived serde
representation of the record to the external ciborium CBOR serializer
(RFC 8949): a struct becomes a definite-length map with the field-name
text keys in declaration order, an unsigned integer takes the
minimal-length head, `Option` becomes null or the bare value, a unit
enum variant becomes its name as a text string, and `serde_bytes` data
becomes a byte string.  The models below give the exact byte length of
that encoding. -/

/-- CBOR head size (RFC 8949): the initial byte plus the minimal-length
unsigned argument encoding, as emitted for integer values, string
lengths and container counts. -/
def cborHeadSize (n : Nat) : Nat :=
  if n < 24 then 1
  else if n < 2 ^ 8 then 2
  else if n < 2 ^ 16 then 3
  else if n < 2 ^ 32 then 5
  else 9

/-- Size of an encoded unsigned integer. -/
def cborUintSize (n : Nat) : Nat := cborHeadSize n

/-- Size of a definite-length text string of the given byte length. -/
def cborTextSize (len : Nat) : Nat := cborHeadSize len + len

/-- Size of a definite-length byte string of the given length. -/
def cborBytesSize (len : Nat) : Nat := cborHeadSize len + len

/-- Size of an encoded `Option` over an index: `None` is the one-byte
null, `Some` is the bare inner value. -/
def cborOptUintSize : Option Nat → Nat
  | none => 1
  | some n => cborUintSize n

/-- Byte length of the unit-variant name serde emits for `FileType`:
"Directory", "RegularFile" or "SymbolicLink". -/
def FileType.variantLen : FileType → Nat
  | .Directory => 9
  | .RegularFile => 11
  | .SymbolicLink => 12

/-- Serialized size of the `times` field inside `Metadata::to_bytes`
(`types.rs` lines 61-67): a 3-entry map keyed "accessed", "modified",
"created". -/
def Times.to_bytes_len (t : Times) : Nat :=
  cborHeadSize 3 +
  (cborTextSize 8 + cborUintSize t.accessed) +
  (cborTextSize 8 + cborUintSize t.modified) +
  (cborTextSize 7 + cborUintSize t.created)

/-- Length of the blob produced by `Metadata::to_bytes` (`types.rs`
lines 61-67): a 7-entry map keyed "node", "file_type", "link_count",
"size", "times", "first_dir_entry", "last_dir_entry".  The
`assert!(Self::MAX_SIZE >= buf.len() as u32)` inside `to_bytes`, with
`MAX_SIZE = 128` from lines 74-79, succeeds exactly when this is at
most 128. -/
def Metadata.to_bytes_len (m : Metadata) : Nat :=
  cborHeadSize 7 +
  (cborTextSize 4 + cborUintSize m.node) +
  (cborTextSize 9 + cborTextSize m.file_type.variantLen) +
  (cborTextSize 10 + cborUintSize m.link_count) +
  (cborTextSize 4 + cborUintSize m.size) +
  (cborTextSize 5 + m.times.to_bytes_len) +
  (cborTextSize 15 + cborOptUintSize m.first_dir_entry) +
  (cborTextSize 14 + cborOptUintSize m.last_dir_entry)

/-- Length of the blob produced by `DirEntry::to_bytes` (`types.rs`
lines 196-202): a 4-entry map keyed "name", "node", "next_entry",
"prev_entry".  The custom `Serialize` for `FileName` (lines 138-145)
emits the whole fixed buffer as one byte string, so the name field
always contributes its full 255-byte capacity.  The
`assert!(Self::MAX_SIZE >= buf.len() as u32)` inside `to_bytes`, with
`MAX_SIZE = 304` from lines 209-213, succeeds exactly when this is at
most 304. -/
def DirEntry.to_bytes_len (e : DirEntry) : Nat :=
  cborHeadSize 4 +
  (cborTextSize 4 + cborBytesSize e.name.bytes.length) +
  (cborTextSize 4 + cborUintSize e.node) +
  (cborTextSize 10 + cborOptUintSize e.next_entry) +
  (cborTextSize 10 + cborOptUintSize e.prev_entry)

/-- From `types.rs` lines 138-145: the custom `Serialize` for
`FileName` hands the whole fixed byte buffer (not just the first
`length` bytes) to the serializer. -/
def FileName.serializeBytes (n : FileName) : List Nat := n.bytes

/-- From `types.rs` lines 147-165: the custom `Deserialize` for
`FileName` reads the byte string back, requires exactly `MAX_FILE_NAME`
bytes for the fixed-size buffer conversion, and sets `length` to the
byte-string length. -/
def FileName.deserializeBytes (bs : List Nat) : Option FileName :=
  if bs.length = MAX_FILE_NAME then some ⟨bs.length, bs⟩ else none

/-- From `types.rs` lines 196-207: `DirEntry::from_bytes` composed with
`DirEntry::to_bytes` at the serde level.  The external CBOR transport
(ciborium) carries the serde data model faithfully, so the derived
integer and `Option` fields round-trip to themselves while the `name`
field passes through the custom `FileName` impls above. -/
def DirEntry.serdeRoundtrip (e : DirEntry) : Option DirEntry :=
  match FileName.deserializeBytes (FileName.serializeBytes e.name) with
  | none => none
  | some nm => some { e with name := nm }

/-- Metadata with every u64 field at u64::MAX and both entry indices
present at u32::MAX (the claim's "maximal" field values). -/
def metadataAllMax : Metadata :=
  ⟨2 ^ 64 - 1, .RegularFile, 2 ^ 64 - 1, 2 ^ 64 - 1,
   ⟨2 ^ 64 - 1, 2 ^ 64 - 1, 2 ^ 64 - 1⟩, some (2 ^ 32 - 1), some (2 ^ 32 - 1)⟩

/-- DirEntry with a maximal-length name, u64::MAX node and both
neighbour indices present at u32::MAX. -/
def direntryAllMax : DirEntry :=
  ⟨⟨255, List.replicate 255 255⟩, 2 ^ 64 - 1, some (2 ^ 32 - 1), some (2 ^ 32 - 1)⟩

/-- A directory entry whose name has explicit length 4 ("test" plus
zero padding), used to exhibit the round-trip length corruption. -/
def direntrySample : DirEntry :=
  ⟨⟨4, [116, 101, 115, 116] ++ List.replicate 251 0⟩, 7, none, some 3⟩

/-- Shared concrete fixtures for witnesses. -/
def statZ : FdStat := ⟨0⟩

def dirZ : Dir := ⟨0, statZ⟩

def fileZ : File := ⟨1, 0, statZ⟩

def rootMdZ : Metadata := ⟨0, .Directory, 1, 0, ⟨0, 0, 0⟩, some 0, some 0⟩

def fileMdZ : Metadata := ⟨1, .RegularFile, 1, 0, ⟨0, 0, 0⟩, none, none⟩

def stZ : Storage :=
  ⟨0, fun n => if n = 0 then some rootMdZ else if n = 1 then some fileMdZ else none,
   fun _ => [], fun _ _ _ => 0, 2, 1⟩

/-- A filesystem whose table has one open directory (the root). -/
def fsZ : FileSystem := ⟨0, ⟨[(0, .Dir dirZ)], 1⟩, stZ⟩

/-- A filesystem whose table is empty. -/
def fsE : FileSystem := ⟨0, ⟨[], 1⟩, stZ⟩

/-- A filesystem whose table has one open file on node 1 at fd 0. -/
def fsF : FileSystem := ⟨0, ⟨[(0, .File fileZ)], 1⟩, stZ⟩


/-- The handle with its per-descriptor stat replaced (used to state the
effect of `set_stat` uniformly over both kinds). -/
def FdEntry.withStat : FdEntry → FdStat → FdEntry
  | .File f, s => .File { f with stat := s }
  | .Dir d, s => .Dir { d with stat := s }

/-- The file type `get_stat` reports for a handle kind. -/
def FdEntry.fileTypeOf : FdEntry → FileType
  | .File _ => .RegularFile
  | .Dir _ => .Directory

/-! ### Descriptor-table lemmas -/

theorem updEntry_pos (fd : Nat) (e : FdEntry) (p : Nat × FdEntry) (h : p.1 = fd) :
    updEntry fd e p = (p.1, e) := by
  unfold updEntry
  rw [if_pos h]

theorem updEntry_neg (fd : Nat) (e : FdEntry) (p : Nat × FdEntry) (h : ¬p.1 = fd) :
    updEntry fd e p = p := by
  unfold updEntry
  rw [if_neg h]

theorem fdLookup_update_present (fd : Nat) (e x : FdEntry) :
    ∀ l : List (Nat × FdEntry), fdLookup l fd = some x →
      fdLookup (l.map (updEntry fd e)) fd = some e := by
  intro l
  induction l with
  | nil => intro h; simp [fdLookup] at h
  | cons p rest ih =>
    obtain ⟨k, v⟩ := p
    intro h
    by_cases hk : k = fd
    · rw [List.map_cons, updEntry_pos fd e (k, v) hk]
      show (if k = fd then some e else fdLookup (rest.map (updEntry fd e)) fd) = some e
      rw [if_pos hk]
    · rw [List.map_cons, updEntry_neg fd e (k, v) hk]
      show (if k = fd then some v else fdLookup (rest.map (updEntry fd e)) fd) = some e
      rw [if_neg hk]
      have h' : fdLookup rest fd = some x := by
        have : fdLookup ((k, v) :: rest) fd
            = (if k = fd then some v else fdLookup rest fd) := rfl
        rw [this, if_neg hk] at h
        exact h
      exact ih h'

theorem fdLookup_update_other (fd fd' : Nat) (e : FdEntry) (hne : fd' ≠ fd) :
    ∀ l : List (Nat × FdEntry),
      fdLookup (l.map (updEntry fd e)) fd' = fdLookup l fd' := by
  intro l
  induction l with
  | nil => rfl
  | cons p rest ih =>
    obtain ⟨k, v⟩ := p
    by_cases hk : k = fd
    · rw [List.map_cons, updEntry_pos fd e (k, v) hk]
      show (if k = fd' then some e else fdLookup (rest.map (updEntry fd e)) fd')
          = fdLookup ((k, v) :: rest) fd'
      have hk' : ¬k = fd' := by rw [hk]; exact fun h => hne h.symm
      rw [if_neg hk']
      show fdLookup (rest.map (updEntry fd e)) fd'
          = (if k = fd' then some v else fdLookup rest fd')
      rw [if_neg hk']
      exact ih
    · rw [List.map_cons, updEntry_neg fd e (k, v) hk]
      show (if k = fd' then some v else fdLookup (rest.map (updEntry fd e)) fd')
          = (if k = fd' then some v else fdLookup rest fd')
      rw [ih]

theorem fdLookup_mem (fd : Nat) (x : FdEntry) :
    ∀ l : List (Nat × FdEntry), fdLookup l fd = some x → (fd, x) ∈ l := by
  intro l
  induction l with
  | nil => intro h; simp [fdLookup] at h
  | cons p rest ih =>
    obtain ⟨k, v⟩ := p
    intro h
    have hcons : fdLookup ((k, v) :: rest) fd
        = (if k = fd then some v else fdLookup rest fd) := rfl
    by_cases hk : k = fd
    · rw [hcons, if_pos hk] at h
      injection h with h
      rw [← hk, ← h]
      exact List.mem_cons_self _ _
    · rw [hcons, if_neg hk] at h
      exact List.mem_cons_of_mem _ (ih h)

theorem fdLookup_none_of_ge (fd bound : Nat) (hfd : bound ≤ fd) :
    ∀ l : List (Nat × FdEntry), (∀ p ∈ l, p.1 < bound) → fdLookup l fd = none := by
  intro l
  induction l with
  | nil => intro _; rfl
  | cons p rest ih =>
    obtain ⟨k, v⟩ := p
    intro h
    have hk : k < bound := h (k, v) (List.mem_cons_self _ _)
    have hne : ¬k = fd := by omega
    simp only [fdLookup, if_neg hne]
    exact ih fun q hq => h q (List.mem_cons_of_mem _ hq)

/-- A well-formed table answers `none` at the allocator position. -/
theorem FdTable.get_next_fd_none (t : FdTable) (h : t.WF) : t.get t.next_fd = none :=
  fdLookup_none_of_ge t.next_fd t.next_fd (Nat.le_refl _) t.entries h

/-- In a well-formed table every open descriptor lies below the allocator. -/
theorem FdTable.lt_next_of_get (t : FdTable) (h : t.WF) (fd : Nat) (x : FdEntry)
    (hx : t.get fd = some x) : fd < t.next_fd :=
  h (fd, x) (fdLookup_mem fd x t.entries hx)

/-! ### Claim C6: the size assertion in the `Storable` impls -/


set_option maxRecDepth 40000 in
/-- C6: the claim that `Metadata::to_bytes` stays within 128 bytes and
`DirEntry::to_bytes` within 304 bytes for all field values is false on
the code: with maximal u64/u32 fields the ciborium encoding of
`Metadata` is 172 bytes and that of `DirEntry` is 309 bytes, so the
`assert!(Self::MAX_SIZE >= buf.len() as u32)` in each `to_bytes`
(`types.rs` lines 65 and 200) fails.  The bounds do hold for small
records (last conjunct, 114 bytes, matching the comment's measured
value of about 120). -/
theorem c6_to_bytes_size_exceeds_bound :
    Metadata.to_bytes_len metadataAllMax = 172 ∧
    128 < Metadata.to_bytes_len metadataAllMax ∧
    DirEntry.to_bytes_len direntryAllMax = 309 ∧
    304 < DirEntry.to_bytes_len direntryAllMax ∧
    Metadata.to_bytes_len ⟨0, .Directory, 1, 0, ⟨0, 0, 0⟩, none, none⟩ = 114 := by
  refine ⟨?_, ?_, ?_, ?_, ?_⟩ <;> decide

/-! ### Claim C7: DirEntry serialization round-trip -/


set_option maxRecDepth 40000 in
/-- C7 counterexample: round-tripping a `DirEntry` whose `FileName` has
length 4 (at most 255, as the claim demands) does not give back the
original entry — `FileName::deserialize` rebuilds `length` from the
transported byte string, which `FileName::serialize` always emits at
the full 255-byte capacity. -/
theorem c7_roundtrip_not_identity :
    DirEntry.serdeRoundtrip direntrySample ≠ some direntrySample ∧
    direntrySample.name.length = 4 ∧
    direntrySample.name.bytes.length = 255 := by
  refine ⟨?_, ?_, ?_⟩ <;> decide

/-- C7 (amended): deserializing the serialization of a `DirEntry`
preserves `node`, `next_entry`, `prev_entry` and the full 255-byte name
buffer (hence the first `length` bytes of the name), but resets the
name's explicit `length` to `MAX_FILE_NAME`; the round-trip is the
identity exactly on entries whose name length is already 255. -/
theorem c7_roundtrip_amended (e : DirEntry) (h : e.name.bytes.length = MAX_FILE_NAME) :
    DirEntry.serdeRoundtrip e = some { e with name := ⟨MAX_FILE_NAME, e.name.bytes⟩ } := by
  simp [DirEntry.serdeRoundtrip, FileName.serializeBytes, FileName.deserializeBytes, h]

set_option maxRecDepth 40000 in
/-- Witness for the amended C7 at a concrete entry. -/
theorem c7_roundtrip_amended_witness :
    DirEntry.serdeRoundtrip ⟨⟨0, List.replicate 255 0⟩, 1, none, none⟩ =
      some ⟨⟨MAX_FILE_NAME, List.replicate 255 0⟩, 1, none, none⟩ :=
  c7_roundtrip_amended ⟨⟨0, List.replicate 255 0⟩, 1, none, none⟩ (by decide)

/-! ### Claim C10: remove_file never touches the descriptor table -/

theorem get_stat_congr (fs fs' : FileSystem) (h : fs'.fd_table = fs.fd_table) (fd : Nat) :
    fs'.get_stat fd = fs.get_stat fd := by
  simp [FileSystem.get_stat, h]

/-- C10: `remove_file` never modifies the descriptor table — whether it
succeeds or fails, every descriptor (including the parent's and any fd
open on the removed node) keeps its exact slot, and `get_stat` answers
as before. -/
theorem c10_remove_file_table_frame (fs : FileSystem) (parent : Nat) (path : List Nat) :
    (fs.remove_file parent path).2.fd_table = fs.fd_table ∧
    ∀ fd, (fs.remove_file parent path).2.get_stat fd = fs.get_stat fd := by
  have htab : (fs.remove_file parent path).2.fd_table = fs.fd_table := by
    unfold FileSystem.remove_file
    cases hd : fs.get_dir parent with
    | error e => rfl
    | ok dir => rfl
  exact ⟨htab, fun fd => get_stat_congr fs _ htab fd⟩

/-! ### Claim C4: EXCLUSIVE always rejects, never gates creation -/

/-- C4: `open` with EXCLUSIVE set fails with `FileAlreadyExists` for
every node, stat and remaining flag combination, returning before the
node's metadata is consulted (the state is returned untouched even for
nodes with no metadata at all); and EXCLUSIVE never gates creation —
on the not-found creation path `open_or_create` behaves exactly like
`create_file` whatever the EXCLUSIVE bit is. -/
theorem c4_exclusive_always_rejects (fs : FileSystem) (node : Nat) (stat : FdStat)
    (flags : OpenFlags) (hex : flags.exclusive = true) :
    fs.open node stat flags = (.error .FileAlreadyExists, fs) ∧
    (∀ parent path dir, fs.get_dir parent = .ok dir →
      dir.find_node path fs.storage = .error .NotFound →
      flags.create = true → flags.directory = false →
      fs.open_or_create parent path stat flags = fs.create_file parent path stat) := by
  constructor
  · simp [FileSystem.open, hex]
  · intro parent path dir hdir hfind hc hd
    simp [FileSystem.open_or_create, hdir, hfind, hc, hd]


/-- Witness for C4 at concrete inputs: EXCLUSIVE alone rejects, and
EXCLUSIVE together with CREATE on a missing name still routes to
`create_file`. -/
theorem c4_witness :
    fsZ.open 5 statZ ⟨false, false, true, false⟩ = (.error .FileAlreadyExists, fsZ) ∧
    fsZ.open_or_create 0 [97] statZ ⟨true, false, true, false⟩ =
      fsZ.create_file 0 [97] statZ := by
  refine ⟨(c4_exclusive_always_rejects fsZ 5 statZ ⟨false, false, true, false⟩ rfl).1, ?_⟩
  exact (c4_exclusive_always_rejects fsZ 5 statZ ⟨true, false, true, false⟩ rfl).2
    0 [97] dirZ rfl rfl rfl rfl

/-! ### Claim C5: fd lookup errors of the facade operations -/

/-- C5: every Fd-taking facade operation — the scalar and vectored
reads and writes, `seek`, `tell`, `close`, the metadata and stat
operations, `open_metadata` and the directory operations — answers
`NotFound` for an fd absent from the descriptor table; the operations
needing a File (`read`, `write`, `seek`, `tell` and the four vectored
variants) answer `InvalidFileType` on a directory handle; and the
operations needing a Directory (`create_file`, `create_dir`,
`remove_file`, `get_direntry`, `open_metadata`, `open_or_create`'s
parent) answer `InvalidFileType` on a file handle. -/
theorem c5_fd_lookup_errors (fs : FileSystem) (fd len t : Nat) (src : List Nat)
    (bufs : List (List Nat)) (dsts : List Nat) (offset : Nat) (md : Metadata)
    (delta : Int) (w : Whence) (path : List Nat) (stat : FdStat) (flags : OpenFlags)
    (index : Nat) :
    (fs.fd_table.get fd = none →
      (fs.read fd len).1 = .error .NotFound ∧
      (fs.write fd src).1 = .error .NotFound ∧
      (fs.read_vec fd dsts).1 = .error .NotFound ∧
      (fs.read_vec_with_offset fd dsts offset).1 = .error .NotFound ∧
      (fs.write_vec fd bufs).1 = .error .NotFound ∧
      (fs.write_vec_with_offset fd bufs offset).1 = .error .NotFound ∧
      (fs.seek fd delta w).1 = .error .NotFound ∧
      (fs.tell fd).1 = .error .NotFound ∧
      (fs.close fd).1 = .error .NotFound ∧
      fs.metadata fd = .error .NotFound ∧
      (fs.set_metadata fd md).1 = .error .NotFound ∧
      (fs.set_accessed_time fd t).1 = .error .NotFound ∧
      (fs.set_modified_time fd t).1 = .error .NotFound ∧
      fs.get_stat fd = .error .NotFound ∧
      (fs.set_stat fd stat).1 = .error .NotFound ∧
      fs.open_metadata fd path = .error .NotFound ∧
      (fs.create_file fd path stat).1 = .error .NotFound ∧
      (fs.create_dir fd path stat).1 = .error .NotFound ∧
      (fs.remove_file fd path).1 = .error .NotFound ∧
      fs.get_direntry fd index = .error .NotFound ∧
      (fs.open_or_create fd path stat flags).1 = .error .NotFound) ∧
    (∀ d, fs.fd_table.get fd = some (.Dir d) →
      (fs.read fd len).1 = .error .InvalidFileType ∧
      (fs.write fd src).1 = .error .InvalidFileType ∧
      (fs.seek fd delta w).1 = .error .InvalidFileType ∧
      (fs.tell fd).1 = .error .InvalidFileType ∧
      (fs.read_vec fd dsts).1 = .error .InvalidFileType ∧
      (fs.read_vec_with_offset fd dsts offset).1 = .error .InvalidFileType ∧
      (fs.write_vec fd bufs).1 = .error .InvalidFileType ∧
      (fs.write_vec_with_offset fd bufs offset).1 = .error .InvalidFileType) ∧
    (∀ f, fs.fd_table.get fd = some (.File f) →
      (fs.create_file fd path stat).1 = .error .InvalidFileType ∧
      (fs.create_dir fd path stat).1 = .error .InvalidFileType ∧
      (fs.remove_file fd path).1 = .error .InvalidFileType ∧
      fs.get_direntry fd index = .error .InvalidFileType ∧
      fs.open_metadata fd path = .error .InvalidFileType ∧
      (fs.open_or_create fd path stat flags).1 = .error .InvalidFileType) := by
  refine ⟨fun h => ?_, fun d h => ?_, fun f h => ?_⟩
  · exact ⟨by simp [FileSystem.read, FileSystem.get_file, h],
      by simp [FileSystem.write, FileSystem.get_file, h],
      by simp [FileSystem.read_vec, FileSystem.get_file, h],
      by simp [FileSystem.read_vec_with_offset, FileSystem.get_file, h],
      by simp [FileSystem.write_vec, FileSystem.get_file, h],
      by simp [FileSystem.write_vec_with_offset, FileSystem.get_file, h],
      by simp [FileSystem.seek, FileSystem.get_file, h],
      by simp [FileSystem.tell, FileSystem.get_file, h],
      by simp [FileSystem.close, FdTable.close, h],
      by simp [FileSystem.metadata, FileSystem.get_node, h],
      by simp [FileSystem.set_metadata, FileSystem.get_node, h],
      by simp [FileSystem.set_accessed_time, FileSystem.get_node, h],
      by simp [FileSystem.set_modified_time, FileSystem.get_node, h],
      by simp [FileSystem.get_stat, h],
      by simp [FileSystem.set_stat, h],
      by simp [FileSystem.open_metadata, FileSystem.get_dir, h],
      by simp [FileSystem.create_file, FileSystem.get_dir, h],
      by simp [FileSystem.create_dir, FileSystem.get_dir, h],
      by simp [FileSystem.remove_file, FileSystem.get_dir, h],
      by simp [FileSystem.get_direntry, FileSystem.get_dir, h],
      by simp [FileSystem.open_or_create, FileSystem.get_dir, h]⟩
  · exact ⟨by simp [FileSystem.read, FileSystem.get_file, h],
      by simp [FileSystem.write, FileSystem.get_file, h],
      by simp [FileSystem.seek, FileSystem.get_file, h],
      by simp [FileSystem.tell, FileSystem.get_file, h],
      by simp [FileSystem.read_vec, FileSystem.get_file, h],
      by simp [FileSystem.read_vec_with_offset, FileSystem.get_file, h],
      by simp [FileSystem.write_vec, FileSystem.get_file, h],
      by simp [FileSystem.write_vec_with_offset, FileSystem.get_file, h]⟩
  · exact ⟨by simp [FileSystem.create_file, FileSystem.get_dir, h],
      by simp [FileSystem.create_dir, FileSystem.get_dir, h],
      by simp [FileSystem.remove_file, FileSystem.get_dir, h],
      by simp [FileSystem.get_direntry, FileSystem.get_dir, h],
      by simp [FileSystem.open_metadata, FileSystem.get_dir, h],
      by simp [FileSystem.open_or_create, FileSystem.get_dir, h]⟩

/-- Witness for C5: an empty table answers `NotFound`, a directory
handle rejects `read`, a file handle rejects `create_file`. -/
theorem c5_witness :
    (fsE.read 0 1).1 = .error .NotFound ∧
    (fsE.close 0).1 = .error .NotFound ∧
    (fsZ.read 0 1).1 = .error .InvalidFileType ∧
    (fsZ.write_vec 0 [[7]]).1 = .error .InvalidFileType ∧
    (fsF.create_file 0 [97] statZ).1 = .error .InvalidFileType := by
  have hE := (c5_fd_lookup_errors fsE 0 1 0 [] [[7]] [1] 0 fileMdZ 0 .Start [97] statZ
    ⟨false, false, false, false⟩ 0).1 rfl
  have hZ := (c5_fd_lookup_errors fsZ 0 1 0 [] [[7]] [1] 0 fileMdZ 0 .Start [97] statZ
    ⟨false, false, false, false⟩ 0).2.1 dirZ rfl
  have hF := (c5_fd_lookup_errors fsF 0 1 0 [] [[7]] [1] 0 fileMdZ 0 .Start [97] statZ
    ⟨false, false, false, false⟩ 0).2.2 fileZ rfl
  exact ⟨hE.1, hE.2.2.2.2.2.2.2.2.1, hZ.1, hZ.2.2.2.2.2.2.1, hF.1⟩

/-! ### Claim C8: set_accessed_time / set_modified_time frame -/

/-- C8: for an open fd whose node has a metadata record,
`set_accessed_time` succeeds and replaces exactly `times.accessed` of
that node's record (`set_modified_time` likewise replaces exactly
`times.modified`); every other node's record, the chunk store, the
directory-entry store and the descriptor table are unchanged. -/
theorem c8_set_times_updates_only_target (fs : FileSystem) (fd node t : Nat) (md : Metadata)
    (hnode : fs.get_node fd = .ok node)
    (hmd : fs.storage.metadata node = some md) :
    (fs.set_accessed_time fd t).1 = .ok () ∧
    (fs.set_accessed_time fd t).2.fd_table = fs.fd_table ∧
    (fs.set_accessed_time fd t).2.storage.metadata node =
      some { md with times := { md.times with accessed := t } } ∧
    (∀ n, n ≠ node → (fs.set_accessed_time fd t).2.storage.metadata n = fs.storage.metadata n) ∧
    (fs.set_accessed_time fd t).2.storage.chunks = fs.storage.chunks ∧
    (fs.set_accessed_time fd t).2.storage.direntries = fs.storage.direntries ∧
    (fs.set_modified_time fd t).1 = .ok () ∧
    (fs.set_modified_time fd t).2.fd_table = fs.fd_table ∧
    (fs.set_modified_time fd t).2.storage.metadata node =
      some { md with times := { md.times with modified := t } } ∧
    (∀ n, n ≠ node → (fs.set_modified_time fd t).2.storage.metadata n = fs.storage.metadata n) ∧
    (fs.set_modified_time fd t).2.storage.chunks = fs.storage.chunks ∧
    (fs.set_modified_time fd t).2.storage.direntries = fs.storage.direntries := by
  have ha : fs.set_accessed_time fd t =
      (.ok (), { fs with storage := (fs.storage.put_metadata node
        { md with times := { md.times with accessed := t } }) }) := by
    simp [FileSystem.set_accessed_time, hnode, Storage.get_metadata, hmd]
  have hm : fs.set_modified_time fd t =
      (.ok (), { fs with storage := (fs.storage.put_metadata node
        { md with times := { md.times with modified := t } }) }) := by
    simp [FileSystem.set_modified_time, hnode, Storage.get_metadata, hmd]
  refine ⟨by rw [ha], by rw [ha], ?_, ?_, by rw [ha]; rfl, by rw [ha]; rfl,
    by rw [hm], by rw [hm], ?_, ?_, by rw [hm]; rfl, by rw [hm]; rfl⟩

  · rw [ha]; simp [Storage.put_metadata]
  · intro n hn; rw [ha]; simp [Storage.put_metadata, hn]
  · rw [hm]; simp [Storage.put_metadata]
  · intro n hn; rw [hm]; simp [Storage.put_metadata, hn]

/-- Witness for C8 at the concrete one-file system. -/
theorem c8_witness :
    (fsF.set_accessed_time 0 42).1 = .ok () ∧
    (fsF.set_accessed_time 0 42).2.fd_table = fsF.fd_table ∧
    (fsF.set_modified_time 0 42).2.storage.metadata 0 = fsF.storage.metadata 0 := by
  have h := c8_set_times_updates_only_target fsF 0 1 42 fileMdZ rfl rfl
  exact ⟨h.1, h.2.1, h.2.2.2.2.2.2.2.2.2.1 0 (by decide)⟩

/-! ### Claim C9: set_stat touches only the one descriptor -/

/-- C9: `set_stat` on an open fd succeeds, leaves the storage (hence
the node's metadata) untouched, replaces exactly that descriptor's
stat, keeps every other descriptor's entry — in particular other fds
open on the same node — and a following `get_stat` reports the new
stat with the handle's file type. -/
theorem c9_set_stat_only_descriptor (fs : FileSystem) (fd : Nat) (s : FdStat)
    (entry : FdEntry) (h : fs.fd_table.get fd = some entry) :
    (fs.set_stat fd s).1 = .ok () ∧
    (fs.set_stat fd s).2.storage = fs.storage ∧
    (fs.set_stat fd s).2.fd_table.get fd = some (entry.withStat s) ∧
    (∀ fd', fd' ≠ fd → (fs.set_stat fd s).2.fd_table.get fd' = fs.fd_table.get fd') ∧
    (fs.set_stat fd s).2.get_stat fd = .ok (entry.fileTypeOf, s) := by
  cases entry with
  | File f =>
    have hs : fs.set_stat fd s = (.ok (), fs.put_file fd { f with stat := s }) := by
      simp [FileSystem.set_stat, h]
    have hget : (fs.put_file fd { f with stat := s }).fd_table.get fd
        = some (.File { f with stat := s }) :=
      fdLookup_update_present fd (.File { f with stat := s }) (.File f) fs.fd_table.entries h
    refine ⟨by rw [hs], by rw [hs]; rfl, ?_, ?_, ?_⟩
    · rw [hs]; exact hget
    · intro fd' hne; rw [hs]
      exact fdLookup_update_other fd fd' (.File { f with stat := s }) hne fs.fd_table.entries
    · rw [hs]; simp [FileSystem.get_stat, hget, FdEntry.fileTypeOf]
  | Dir d =>
    have hs : fs.set_stat fd s = (.ok (), fs.put_dir fd { d with stat := s }) := by
      simp [FileSystem.set_stat, h]
    have hget : (fs.put_dir fd { d with stat := s }).fd_table.get fd
        = some (.Dir { d with stat := s }) :=
      fdLookup_update_present fd (.Dir { d with stat := s }) (.Dir d) fs.fd_table.entries h
    refine ⟨by rw [hs], by rw [hs]; rfl, ?_, ?_, ?_⟩
    · rw [hs]; exact hget
    · intro fd' hne; rw [hs]
      exact fdLookup_update_other fd fd' (.Dir { d with stat := s }) hne fs.fd_table.entries
    · rw [hs]; simp [FileSystem.get_stat, hget, FdEntry.fileTypeOf]

/-- Witness for C9 at the concrete one-file system. -/
theorem c9_witness :
    (fsF.set_stat 0 ⟨5⟩).1 = .ok () ∧
    (fsF.set_stat 0 ⟨5⟩).2.storage = fsF.storage ∧
    (fsF.set_stat 0 ⟨5⟩).2.get_stat 0 = .ok (.RegularFile, ⟨5⟩) := by
  have h := c9_set_stat_only_descriptor fsF 0 ⟨5⟩ (.File fileZ) rfl
  exact ⟨h.1, h.2.1, h.2.2.2.2⟩

/-! ### Claim C1: write then read round-trip -/

theorem chunk_coords_inj (p q : Nat)
    (h1 : p / FILE_CHUNK_SIZE = q / FILE_CHUNK_SIZE)
    (h2 : p % FILE_CHUNK_SIZE = q % FILE_CHUNK_SIZE) : p = q := by
  simp only [FILE_CHUNK_SIZE] at h1 h2
  omega

theorem write_byte_chunks_at (st : Storage) (node pos v : Nat) :
    (st.write_byte node pos v).chunks node (pos / FILE_CHUNK_SIZE) (pos % FILE_CHUNK_SIZE)
      = v := by
  simp [Storage.write_byte]

theorem write_byte_chunks_ne (st : Storage) (node pos v q : Nat) (h : q ≠ pos) :
    (st.write_byte node pos v).chunks node (q / FILE_CHUNK_SIZE) (q % FILE_CHUNK_SIZE)
      = st.chunks node (q / FILE_CHUNK_SIZE) (q % FILE_CHUNK_SIZE) := by
  simp only [Storage.write_byte]
  rw [if_neg]
  rintro ⟨-, h1, h2⟩
  exact h (chunk_coords_inj q pos h1 h2)

theorem write_bytes_chunks_lt (data : List Nat) :
    ∀ (st : Storage) (node pos q : Nat), q < pos →
      (st.write_bytes node pos data).chunks node (q / FILE_CHUNK_SIZE) (q % FILE_CHUNK_SIZE)
        = st.chunks node (q / FILE_CHUNK_SIZE) (q % FILE_CHUNK_SIZE) := by
  induction data with
  | nil => intro st node pos q _; rfl
  | cons b bs ih =>
    intro st node pos q hq
    simp only [Storage.write_bytes]
    rw [ih (st.write_byte node pos b) node (pos + 1) q (by omega)]
    exact write_byte_chunks_ne st node pos b q (by omega)

theorem write_bytes_chunks_at (data : List Nat) :
    ∀ (st : Storage) (node pos k : Nat) (h : k < data.length),
      (st.write_bytes node pos data).chunks node
        ((pos + k) / FILE_CHUNK_SIZE) ((pos + k) % FILE_CHUNK_SIZE) = data[k] := by
  induction data with
  | nil => intro st node pos k h; simp at h
  | cons b bs ih =>
    intro st node pos k h
    simp only [Storage.write_bytes]
    cases k with
    | zero =>
      simp only [Nat.add_zero]
      rw [write_bytes_chunks_lt bs (st.write_byte node pos b) node (pos + 1) pos (by omega)]
      simpa using write_byte_chunks_at st node pos b
    | succ k' =>
      have h' : k' < bs.length := by simp [List.length_cons] at h; omega
      have hpk : pos + (k' + 1) = (pos + 1) + k' := by omega
      rw [hpk, ih (st.write_byte node pos b) node (pos + 1) k' h']
      simp

theorem read_back_after_write (st : Storage) (node : Nat) (data : List Nat) :
    ((List.range data.length).map fun k =>
        (st.write_bytes node 0 data).chunks node (k / FILE_CHUNK_SIZE) (k % FILE_CHUNK_SIZE))
      = data := by
  apply List.ext_getElem
  · simp
  · intro i h1 h2
    simp only [List.getElem_map, List.getElem_range]
    have := write_bytes_chunks_at data st node 0 i h2
    simpa using this

/-- C1: on a freshly created regular file (cursor at zero, size zero),
`write(fd, data)` returns `data.length`, and reading from offset zero
(seek to `Start` 0, then `read` with a destination of length
`data.length`) returns exactly the written bytes, for arbitrary content
length including transfers spanning several 4096-byte chunks. -/
theorem c1_write_then_read_roundtrip (fs : FileSystem) (fd : Nat) (f : File)
    (md : Metadata) (data : List Nat)
    (hfd : fs.fd_table.get fd = some (.File f))
    (hcur : f.cursor = 0)
    (hmd : fs.storage.metadata f.node = some md)
    (hsize : md.size = 0)
    (_hbytes : ∀ b ∈ data, b < 256) :
    ∃ fs₁ fs₂,
      fs.write fd data = (.ok data.length, fs₁) ∧
      fs₁.seek fd 0 .Start = (.ok 0, fs₂) ∧
      (fs₂.read fd data.length).1 = .ok data := by
  obtain ⟨nd, cur, stt⟩ := f
  have hc : cur = 0 := hcur
  subst hc
  have hmd' : fs.storage.metadata nd = some md := hmd
  have hw : fs.write fd data =
      (.ok data.length,
       ({ fs with storage := ((fs.storage.write_bytes nd 0 data).put_metadata nd
           { md with size := max md.size (0 + data.length) }) }).put_file fd
         ⟨nd, 0 + data.length, stt⟩) := by
    simp only [FileSystem.write, FileSystem.get_file, hfd, File.write_with_cursor,
      File.write_with_offset, hmd']
  set FS1 := ({ fs with storage := ((fs.storage.write_bytes nd 0 data).put_metadata nd
      { md with size := max md.size (0 + data.length) }) }).put_file fd
      ⟨nd, 0 + data.length, stt⟩ with hFS1
  have htab1 : FS1.fd_table.get fd = some (.File ⟨nd, 0 + data.length, stt⟩) :=
    fdLookup_update_present fd (.File ⟨nd, 0 + data.length, stt⟩) (.File ⟨nd, 0, stt⟩)
      fs.fd_table.entries hfd
  have hseek : FS1.seek fd 0 .Start = (.ok 0, FS1.put_file fd ⟨nd, 0, stt⟩) := by
    simp [FileSystem.seek, FileSystem.get_file, htab1, File.seek]
  set FS2 := FS1.put_file fd ⟨nd, 0, stt⟩ with hFS2
  have htab2 : FS2.fd_table.get fd = some (.File ⟨nd, 0, stt⟩) :=
    fdLookup_update_present fd (.File ⟨nd, 0, stt⟩) (.File ⟨nd, 0 + data.length, stt⟩)
      FS1.fd_table.entries htab1
  have hmd2 : FS2.storage.metadata nd
      = some { md with size := max md.size (0 + data.length) } := by
    simp [hFS2, hFS1, FileSystem.put_file, Storage.put_metadata]
  have hchunks : FS2.storage.chunks = (fs.storage.write_bytes nd 0 data).chunks := by
    simp [hFS2, hFS1, FileSystem.put_file, Storage.put_metadata]
  have hr : (FS2.read fd data.length).1 = .ok data := by
    simp only [FileSystem.read, FileSystem.get_file, htab2, File.read_with_cursor,
      File.read_with_offset, hmd2]
    rw [hsize]
    simp only [Nat.zero_add, Nat.sub_zero, Nat.zero_max, Nat.min_self, hchunks]
    exact congrArg Except.ok (read_back_after_write fs.storage nd data)
  exact ⟨FS1, FS2, hw, hseek, hr⟩

/-- Witness for C1: a 5000-byte write spanning two 4096-byte chunks on
the concrete one-file system, read back in full. -/
theorem c1_witness :
    ∃ fs₁ fs₂,
      fsF.write 0 (List.replicate 5000 7) = (.ok (List.replicate 5000 7).length, fs₁) ∧
      fs₁.seek 0 0 .Start = (.ok 0, fs₂) ∧
      (fs₂.read 0 (List.replicate 5000 7).length).1 = .ok (List.replicate 5000 7) :=
  c1_write_then_read_roundtrip fsF 0 fileZ fileMdZ (List.replicate 5000 7) rfl rfl rfl rfl
    (fun b hb => by rw [List.eq_of_mem_replicate hb]; omega)

/-! ### Claim C2: open_or_create on an unresolved name -/

theorem any_eq_false_of_find?_none {α : Type} (p : α → Bool) :
    ∀ l : List α, l.find? p = none → l.any p = false := by
  intro l
  induction l with
  | nil => intro _; rfl
  | cons a rest ih =>
    intro h
    cases hp : p a with
    | true => rw [List.find?_cons_of_pos _ hp] at h; cases h
    | false =>
      rw [List.find?_cons_of_neg _ (by simp [hp])] at h
      simp [List.any_cons, hp, ih h]

theorem find?_append_none {α : Type} (p : α → Bool) :
    ∀ l₁ l₂ : List α, l₁.find? p = none → (l₁ ++ l₂).find? p = l₂.find? p := by
  intro l₁
  induction l₁ with
  | nil => intro l₂ _; rfl
  | cons a rest ih =>
    intro l₂ h
    have hp : p a = false := by
      cases hp : p a with
      | true => rw [List.find?_cons_of_pos _ hp] at h; cases h
      | false => rfl
    rw [List.find?_cons_of_neg _ (by simp [hp])] at h
    rw [List.cons_append, List.find?_cons_of_neg _ (by simp [hp])]
    exact ih l₂ h

/-- Inversion of a failed name resolution: the scan really found no
matching entry. -/
theorem find_node_none_inv (d : Dir) (path : List Nat) (st : Storage)
    (h : d.find_node path st = .error .NotFound) :
    (st.direntries d.node).find? (matchesPath path) = none := by
  unfold Dir.find_node at h
  cases hf : (st.direntries d.node).find? (matchesPath path) with
  | none => rfl
  | some p => rw [hf] at h; cases h

/-- The freshly built name matches its own path. -/
theorem matchesPath_new_name (path pad : List Nat) (idx nd : Nat)
    (next prev : Option Nat) :
    matchesPath path (idx, ⟨⟨path.length, path ++ pad⟩, nd, next, prev⟩) = true := by
  simp [matchesPath, fileNameMatches, List.take_left]

theorem setTailNext_cons (idx li : Nat) (p : Nat × DirEntry) (l : List (Nat × DirEntry)) :
    setTailNext idx li (p :: l)
      = (if p.1 = li then (p.1, { p.2 with next_entry := some idx }) else p)
        :: setTailNext idx li l := rfl

/-- Relinking the old tail's `next_entry` changes no entry's name, so a
name scan that found nothing still finds nothing. -/
theorem find?_none_setTailNext (path : List Nat) (idx li : Nat) :
    ∀ l : List (Nat × DirEntry), l.find? (matchesPath path) = none →
      (setTailNext idx li l).find? (matchesPath path) = none := by
  intro l
  induction l with
  | nil => intro _; rfl
  | cons p rest ih =>
    intro h
    have hp : matchesPath path p = false := by
      cases hq : matchesPath path p with
      | true => rw [List.find?_cons_of_pos _ hq] at h; cases h
      | false => rfl
    have hp' : matchesPath path
        (if p.1 = li then (p.1, { p.2 with next_entry := some idx }) else p) = false := by
      by_cases hli : p.1 = li
      · simpa [hli, matchesPath, fileNameMatches] using hp
      · simpa [hli] using hp
    rw [setTailNext_cons, List.find?_cons_of_neg _ (by simp [hp'])]
    rw [List.find?_cons_of_neg _ (by simp [hp])] at h
    exact ih h

/-- C2 (amended): with a parent directory handle, a name that resolves
to no entry, a well-formed descriptor table and parent metadata
present: without CREATE the call fails with `NotFound`; with CREATE and
DIRECTORY it fails with `InvalidFileType`, both leaving the state
untouched; with CREATE alone it creates a regular file under that name
and returns a fresh fd — provided the name fits in `MAX_FILE_NAME`
bytes (a longer name fails with `NameTooLong` instead, the correction
the counterexample forces). -/
theorem c2_open_or_create_not_found (fs : FileSystem) (parent : Nat) (path : List Nat)
    (stat : FdStat) (dir : Dir) (pmd : Metadata)
    (hpar : fs.fd_table.get parent = some (.Dir dir))
    (hfind : dir.find_node path fs.storage = .error .NotFound)
    (hwf : fs.fd_table.WF)
    (hpmd : fs.storage.metadata dir.node = some pmd) :
    (∀ flags : OpenFlags, flags.create = false →
      fs.open_or_create parent path stat flags = (.error .NotFound, fs)) ∧
    (∀ flags : OpenFlags, flags.create = true → flags.directory = true →
      fs.open_or_create parent path stat flags = (.error .InvalidFileType, fs)) ∧
    (∀ flags : OpenFlags, flags.create = true → flags.directory = false →
      path.length ≤ MAX_FILE_NAME →
      (fs.open_or_create parent path stat flags).1 = .ok fs.fd_table.next_fd ∧
      fs.fd_table.get fs.fd_table.next_fd = none ∧
      (fs.open_or_create parent path stat flags).2.fd_table.get fs.fd_table.next_fd
        = some (.File ⟨fs.storage.next_node, 0, stat⟩) ∧
      (fs.open_or_create parent path stat flags).2.storage.metadata fs.storage.next_node
        = some ⟨fs.storage.next_node, .RegularFile, 1, 0, ⟨0, 0, 0⟩, none, none⟩ ∧
      dir.find_node path (fs.open_or_create parent path stat flags).2.storage
        = .ok fs.storage.next_node) := by
  have hdir : fs.get_dir parent = .ok dir := by simp [FileSystem.get_dir, hpar]
  refine ⟨fun flags hc => ?_, fun flags hc hd => ?_, fun flags hc hd hlen => ?_⟩
  · simp [FileSystem.open_or_create, hdir, hfind, hc]
  · simp [FileSystem.open_or_create, hdir, hfind, hc, hd]
  · have hstep1 : fs.open_or_create parent path stat flags
        = fs.create_file parent path stat := by
      simp [FileSystem.open_or_create, hdir, hfind, hc, hd]
    have hfind? : (fs.storage.direntries dir.node).find? (matchesPath path) = none :=
      find_node_none_inv dir path fs.storage hfind
    have hany : (fs.storage.direntries dir.node).any (matchesPath path) = false :=
      any_eq_false_of_find?_none _ _ hfind?
    have hnm : FileName.new path
        = .ok ⟨path.length, path ++ List.replicate (MAX_FILE_NAME - path.length) 0⟩ := by
      simp [FileName.new, show ¬path.length > MAX_FILE_NAME by omega]
    have hcf : dir.create_file path stat fs.storage
        = (.ok ⟨fs.storage.next_node, 0, stat⟩,
           { fs.storage with
             metadata := fun n =>
               if n = fs.storage.next_node then
                 some ⟨fs.storage.next_node, .RegularFile, 1, 0, ⟨0, 0, 0⟩, none, none⟩
               else if n = dir.node then
                 some { pmd with
                   first_dir_entry :=
                     some (pmd.first_dir_entry.getD fs.storage.next_dir_entry_index),
                   last_dir_entry := some fs.storage.next_dir_entry_index }
               else fs.storage.metadata n,
             direntries := fun n =>
               if n = dir.node then
                 (match pmd.last_dir_entry with
                  | some lastIdx => setTailNext fs.storage.next_dir_entry_index lastIdx
                      (fs.storage.direntries dir.node)
                  | none => fs.storage.direntries dir.node) ++
                 [(fs.storage.next_dir_entry_index,
                   ⟨⟨path.length, path ++ List.replicate (MAX_FILE_NAME - path.length) 0⟩,
                    fs.storage.next_node, none, pmd.last_dir_entry⟩)]
               else fs.storage.direntries n,
             next_node := fs.storage.next_node + 1,
             next_dir_entry_index := fs.storage.next_dir_entry_index + 1 }) := by
      simp only [Dir.create_file, Dir.mk_child, hnm, hany, hpmd, Bool.false_eq_true,
        if_false]
    have hcreate : fs.create_file parent path stat
        = (.ok fs.fd_table.next_fd,
           { fs with
             storage := (dir.create_file path stat fs.storage).2,
             fd_table := FdTable.update
               ⟨(fs.fd_table.next_fd, .File ⟨fs.storage.next_node, 0, stat⟩)
                  :: fs.fd_table.entries,
                fs.fd_table.next_fd + 1⟩ parent (.Dir dir) }) := by
      simp only [FileSystem.create_file, hdir, hcf, FdTable.open]
    have hne : ¬fs.fd_table.next_fd = parent := by
      have := FdTable.lt_next_of_get fs.fd_table hwf parent (.Dir dir) hpar
      omega
    refine ⟨?_, FdTable.get_next_fd_none fs.fd_table hwf, ?_, ?_, ?_⟩
    · rw [hstep1, hcreate]
    · rw [hstep1, hcreate]
      show fdLookup (((fs.fd_table.next_fd, FdEntry.File ⟨fs.storage.next_node, 0, stat⟩)
        :: fs.fd_table.entries).map (updEntry parent (.Dir dir))) fs.fd_table.next_fd
        = some (.File ⟨fs.storage.next_node, 0, stat⟩)
      rw [List.map_cons,
        updEntry_neg parent (.Dir dir) (fs.fd_table.next_fd, _) hne]
      show (if fs.fd_table.next_fd = fs.fd_table.next_fd
          then some (FdEntry.File ⟨fs.storage.next_node, 0, stat⟩)
          else fdLookup (fs.fd_table.entries.map (updEntry parent (.Dir dir)))
            fs.fd_table.next_fd)
        = some (.File ⟨fs.storage.next_node, 0, stat⟩)
      rw [if_pos rfl]
    · rw [hstep1, hcreate]
      rw [hcf]
      simp
    · have hrel : (match pmd.last_dir_entry with
          | some lastIdx => setTailNext fs.storage.next_dir_entry_index lastIdx
              (fs.storage.direntries dir.node)
          | none => fs.storage.direntries dir.node).find? (matchesPath path) = none := by
        cases pmd.last_dir_entry with
        | none => exact hfind?
        | some li => exact find?_none_setTailNext path _ li _ hfind?
      have hdne : (dir.create_file path stat fs.storage).2.direntries dir.node
          = (match pmd.last_dir_entry with
              | some lastIdx => setTailNext fs.storage.next_dir_entry_index lastIdx
                  (fs.storage.direntries dir.node)
              | none => fs.storage.direntries dir.node) ++
            [(fs.storage.next_dir_entry_index,
              ⟨⟨path.length, path ++ List.replicate (MAX_FILE_NAME - path.length) 0⟩,
               fs.storage.next_node, none, pmd.last_dir_entry⟩)] := by
        rw [hcf]
        simp
      have hgoal : dir.find_node path (dir.create_file path stat fs.storage).2
          = .ok fs.storage.next_node := by
        unfold Dir.find_node
        rw [hdne]
        rw [find?_append_none _ _ _ hrel]
        rw [List.find?_cons_of_pos _ (matchesPath_new_name path _ _ _ _ _)]
      rw [hstep1, hcreate]
      exact hgoal

set_option maxRecDepth 40000 in
/-- C2 counterexample: a 256-byte name resolves to no entry in the root
directory and CREATE is set without DIRECTORY, yet `open_or_create`
does not create a file and return a fresh fd — it fails with
`NameTooLong` from `FileName::new`, leaving the state untouched. -/
theorem c2_long_name_rejected :
    dirZ.find_node (List.replicate 256 97) fsZ.storage = .error .NotFound ∧
    (⟨true, false, false, false⟩ : OpenFlags).create = true ∧
    (⟨true, false, false, false⟩ : OpenFlags).directory = false ∧
    (fsZ.open_or_create 0 (List.replicate 256 97) statZ ⟨true, false, false, false⟩).1
      = .error .NameTooLong ∧
    (fsZ.open_or_create 0 (List.replicate 256 97) statZ ⟨true, false, false, false⟩).2
      = fsZ := by
  refine ⟨rfl, rfl, rfl, rfl, rfl⟩

/-- Witness for the amended C2: creating "a" in the root of the
concrete system yields fd 1 on fresh node 2, found again by name. -/
theorem c2_witness :
    (fsZ.open_or_create 0 [97] statZ ⟨true, false, false, false⟩).1 = .ok 1 ∧
    fsZ.fd_table.get 1 = none ∧
    (fsZ.open_or_create 0 [97] statZ ⟨true, false, false, false⟩).2.fd_table.get 1
      = some (.File ⟨2, 0, statZ⟩) ∧
    (fsZ.open_or_create 0 [97] statZ ⟨true, false, false, false⟩).2.storage.metadata 2
      = some ⟨2, .RegularFile, 1, 0, ⟨0, 0, 0⟩, none, none⟩ ∧
    dirZ.find_node [97] (fsZ.open_or_create 0 [97] statZ ⟨true, false, false, false⟩).2.storage
      = .ok 2 := by
  have h := (c2_open_or_create_not_found fsZ 0 [97] statZ dirZ rootMdZ rfl rfl
    (by decide) rfl).2.2 ⟨true, false, false, false⟩ rfl rfl (by decide)
  exact ⟨h.1, h.2.1, h.2.2.1, h.2.2.2.1, h.2.2.2.2⟩

/-! ### Claim C3: full commit or fail-before-change (vectored I/O excepted) -/

theorem write_with_cursor_err (f : File) (src : List Nat) (st : Storage) (e : Error) :
    (f.write_with_cursor src st).1 = .error e → (f.write_with_cursor src st).2 = st := by
  intro h
  unfold File.write_with_cursor File.write_with_offset at h ⊢
  cases hm : st.metadata f.node with
  | none => simp [hm]
  | some md => simp [hm] at h

theorem truncate_err (f : File) (st : Storage) (e : Error) :
    (f.truncate st).1 = .error e → (f.truncate st).2 = st := by
  intro h
  unfold File.truncate at h ⊢
  cases hm : st.metadata f.node with
  | none => simp [hm]
  | some md => simp [hm] at h

theorem mk_child_err (d : Dir) (ft : FileType) (path : List Nat) (st : Storage) (e : Error) :
    (d.mk_child ft path st).1 = .error e → (d.mk_child ft path st).2 = st := by
  intro h
  unfold Dir.mk_child at h ⊢
  cases hn : FileName.new path with
  | error e' => simp [hn]
  | ok nm =>
    simp only [hn] at h ⊢
    cases hb : (st.direntries d.node).any (matchesPath path) with
    | true => simp [hb]
    | false =>
      simp only [hb] at h ⊢
      cases hm : st.metadata d.node with
      | none => simp [hm]
      | some pmd => simp [hm] at h

theorem dir_create_file_err (d : Dir) (path : List Nat) (stat : FdStat) (st : Storage)
    (e : Error) :
    (d.create_file path stat st).1 = .error e → (d.create_file path stat st).2 = st := by
  intro h
  unfold Dir.create_file at h ⊢
  rcases hm : d.mk_child .RegularFile path st with ⟨r, st'⟩
  cases r with
  | error e' =>
    have h2 : (d.mk_child .RegularFile path st).2 = st :=
      mk_child_err d .RegularFile path st e' (by rw [hm])
    rw [hm] at h2
    simpa using h2
  | ok nodeId => simp [hm] at h

theorem dir_create_dir_err (d : Dir) (path : List Nat) (stat : FdStat) (st : Storage)
    (e : Error) :
    (d.create_dir path stat st).1 = .error e → (d.create_dir path stat st).2 = st := by
  intro h
  unfold Dir.create_dir at h ⊢
  rcases hm : d.mk_child .Directory path st with ⟨r, st'⟩
  cases r with
  | error e' =>
    have h2 : (d.mk_child .Directory path st).2 = st :=
      mk_child_err d .Directory path st e' (by rw [hm])
    rw [hm] at h2
    simpa using h2
  | ok nodeId => simp [hm] at h

theorem rm_entry_err (d : Dir) (path : List Nat) (st : Storage) (e : Error) :
    (d.rm_entry path st).1 = .error e → (d.rm_entry path st).2 = st := by
  intro h
  unfold Dir.rm_entry at h ⊢
  cases hm : st.metadata d.node with
  | none => simp [hm]
  | some pmd =>
    simp only [hm] at h ⊢
    cases hf : (st.direntries d.node).find? (matchesPath path) with
    | none => simp [hf]
    | some p =>
      obtain ⟨idx, entry⟩ := p
      simp [hf] at h

theorem read_err_unchanged (fs : FileSystem) (fd len : Nat) (e : Error) :
    (fs.read fd len).1 = .error e → (fs.read fd len).2 = fs := by
  intro h
  unfold FileSystem.read at h ⊢
  cases hg : fs.get_file fd with
  | error e' => simp [hg]
  | ok file =>
    simp only [hg] at h ⊢
    cases hr : file.read_with_cursor len fs.storage with
    | error e' => simp [hr]
    | ok pr => obtain ⟨data, file'⟩ := pr; simp [hr] at h

theorem write_err_unchanged (fs : FileSystem) (fd : Nat) (src : List Nat) (e : Error) :
    (fs.write fd src).1 = .error e → (fs.write fd src).2 = fs := by
  intro h
  unfold FileSystem.write at h ⊢
  cases hg : fs.get_file fd with
  | error e' => simp [hg]
  | ok file =>
    simp only [hg] at h ⊢
    rcases hw : file.write_with_cursor src fs.storage with ⟨r, st'⟩
    cases r with
    | error e' =>
      have h2 : (file.write_with_cursor src fs.storage).2 = fs.storage :=
        write_with_cursor_err file src fs.storage e' (by rw [hw])
      rw [hw] at h2
      have h3 : st' = fs.storage := h2
      rw [h3]
    | ok pr => obtain ⟨n, file'⟩ := pr; simp [hw] at h

theorem seek_err_unchanged (fs : FileSystem) (fd : Nat) (delta : Int) (w : Whence)
    (e : Error) :
    (fs.seek fd delta w).1 = .error e → (fs.seek fd delta w).2 = fs := by
  intro h
  unfold FileSystem.seek at h ⊢
  cases hg : fs.get_file fd with
  | error e' => simp [hg]
  | ok file =>
    simp only [hg] at h ⊢
    cases hs : file.seek delta w fs.storage with
    | error e' => simp [hs]
    | ok pr => obtain ⟨pos, file'⟩ := pr; simp [hs] at h

theorem tell_snd (fs : FileSystem) (fd : Nat) : (fs.tell fd).2 = fs := by
  unfold FileSystem.tell
  cases hg : fs.get_file fd <;> simp [hg]

theorem close_err_unchanged (fs : FileSystem) (fd : Nat) (e : Error) :
    (fs.close fd).1 = .error e → (fs.close fd).2 = fs := by
  intro h
  unfold FileSystem.close at h ⊢
  cases hc : fs.fd_table.close fd with
  | error e' => simp [hc]
  | ok t => simp [hc] at h

theorem set_metadata_err_unchanged (fs : FileSystem) (fd : Nat) (md : Metadata) (e : Error) :
    (fs.set_metadata fd md).1 = .error e → (fs.set_metadata fd md).2 = fs := by
  intro h
  unfold FileSystem.set_metadata at h ⊢
  cases hg : fs.get_node fd with
  | error e' => simp [hg]
  | ok node => simp [hg] at h

theorem set_accessed_time_err_unchanged (fs : FileSystem) (fd t : Nat) (e : Error) :
    (fs.set_accessed_time fd t).1 = .error e → (fs.set_accessed_time fd t).2 = fs := by
  intro h
  unfold FileSystem.set_accessed_time at h ⊢
  cases hg : fs.get_node fd with
  | error e' => simp [hg]
  | ok node =>
    simp only [hg] at h ⊢
    cases hm : fs.storage.get_metadata node with
    | error e' => simp [hm]
    | ok md => simp [hm] at h

theorem set_modified_time_err_unchanged (fs : FileSystem) (fd t : Nat) (e : Error) :
    (fs.set_modified_time fd t).1 = .error e → (fs.set_modified_time fd t).2 = fs := by
  intro h
  unfold FileSystem.set_modified_time at h ⊢
  cases hg : fs.get_node fd with
  | error e' => simp [hg]
  | ok node =>
    simp only [hg] at h ⊢
    cases hm : fs.storage.get_metadata node with
    | error e' => simp [hm]
    | ok md => simp [hm] at h

theorem set_stat_err_unchanged (fs : FileSystem) (fd : Nat) (stat : FdStat) (e : Error) :
    (fs.set_stat fd stat).1 = .error e → (fs.set_stat fd stat).2 = fs := by
  intro h
  unfold FileSystem.set_stat at h ⊢
  cases hg : fs.fd_table.get fd with
  | none => simp [hg]
  | some entry => cases entry <;> simp [hg] at h

theorem open_err_unchanged (fs : FileSystem) (node : Nat) (stat : FdStat)
    (flags : OpenFlags) (e : Error) :
    (fs.open node stat flags).1 = .error e → (fs.open node stat flags).2 = fs := by
  intro h
  unfold FileSystem.open at h ⊢
  cases hex : flags.exclusive with
  | true => simp [hex]
  | false =>
    simp only [hex, Bool.false_eq_true, if_false] at h ⊢
    cases hm : fs.storage.get_metadata node with
    | error e' => simp [hm]
    | ok md =>
      simp only [hm] at h ⊢
      cases hft : md.file_type with
      | Directory =>
        cases hd : Dir.new node stat fs.storage with
        | error e' => simp [hft, hd]
        | ok dirH => simp [hft, hd] at h
      | RegularFile =>
        cases hdf : flags.directory with
        | true => simp [hft, hdf]
        | false =>
          simp only [hft, hdf, Bool.false_eq_true, if_false] at h ⊢
          cases hf : File.new node stat fs.storage with
          | error e' => simp [hf]
          | ok fileH =>
            simp only [hf] at h ⊢
            cases htr : flags.trunc with
            | false => simp [htr] at h
            | true =>
              simp only [htr, if_true] at h ⊢
              rcases htt : fileH.truncate fs.storage with ⟨r, st'⟩
              cases r with
              | error e' =>
                have h2 : (fileH.truncate fs.storage).2 = fs.storage :=
                  truncate_err fileH fs.storage e' (by rw [htt])
                rw [htt] at h2
                have h3 : st' = fs.storage := h2
                rw [h3]
              | ok u => simp [htt] at h
      | SymbolicLink => simp [hft]

theorem create_file_err_unchanged (fs : FileSystem) (parent : Nat) (path : List Nat)
    (stat : FdStat) (e : Error) :
    (fs.create_file parent path stat).1 = .error e →
      (fs.create_file parent path stat).2 = fs := by
  intro h
  unfold FileSystem.create_file at h ⊢
  cases hg : fs.get_dir parent with
  | error e' => simp [hg]
  | ok dir =>
    simp only [hg] at h ⊢
    rcases hc : dir.create_file path stat fs.storage with ⟨r, st'⟩
    cases r with
    | error e' =>
      have h2 : (dir.create_file path stat fs.storage).2 = fs.storage :=
        dir_create_file_err dir path stat fs.storage e' (by rw [hc])
      rw [hc] at h2
      have h3 : st' = fs.storage := h2
      rw [h3]
    | ok child => simp [hc] at h

theorem create_dir_err_unchanged (fs : FileSystem) (parent : Nat) (path : List Nat)
    (stat : FdStat) (e : Error) :
    (fs.create_dir parent path stat).1 = .error e →
      (fs.create_dir parent path stat).2 = fs := by
  intro h
  unfold FileSystem.create_dir at h ⊢
  cases hg : fs.get_dir parent with
  | error e' => simp [hg]
  | ok dir =>
    simp only [hg] at h ⊢
    rcases hc : dir.create_dir path stat fs.storage with ⟨r, st'⟩
    cases r with
    | error e' =>
      have h2 : (dir.create_dir path stat fs.storage).2 = fs.storage :=
        dir_create_dir_err dir path stat fs.storage e' (by rw [hc])
      rw [hc] at h2
      have h3 : st' = fs.storage := h2
      rw [h3]
    | ok child => simp [hc] at h

theorem remove_file_err_unchanged (fs : FileSystem) (parent : Nat) (path : List Nat)
    (e : Error) :
    (fs.remove_file parent path).1 = .error e → (fs.remove_file parent path).2 = fs := by
  intro h
  unfold FileSystem.remove_file at h ⊢
  cases hg : fs.get_dir parent with
  | error e' => simp [hg]
  | ok dir =>
    simp only [hg] at h ⊢
    rcases hr : dir.rm_entry path fs.storage with ⟨r, st'⟩
    have h2 : (dir.rm_entry path fs.storage).2 = fs.storage :=
      rm_entry_err dir path fs.storage e h
    rw [hr] at h2
    have h3 : st' = fs.storage := h2
    rw [h3]

theorem open_or_create_err_unchanged (fs : FileSystem) (parent : Nat) (path : List Nat)
    (stat : FdStat) (flags : OpenFlags) (e : Error) :
    (fs.open_or_create parent path stat flags).1 = .error e →
      (fs.open_or_create parent path stat flags).2 = fs := by
  intro h
  unfold FileSystem.open_or_create at h ⊢
  cases hg : fs.get_dir parent with
  | error e' => simp [hg]
  | ok dir =>
    simp only [hg] at h ⊢
    cases hf : dir.find_node path fs.storage with
    | ok node =>
      simp only [hf] at h ⊢
      exact open_err_unchanged fs node stat flags e h
    | error e' =>
      cases e' with
      | NotFound =>
        simp only [hf] at h ⊢
        cases hc : flags.create with
        | false => simp [hc]
        | true =>
          simp only [hc, Bool.not_true, Bool.false_eq_true, if_false] at h ⊢
          cases hd : flags.directory with
          | true => simp [hd]
          | false =>
            simp only [hd, Bool.false_eq_true, if_false] at h ⊢
            exact create_file_err_unchanged fs parent path stat e h
      | InvalidFileType => simp [hf]
      | NameTooLong => simp [hf]
      | FileAlreadyExists => simp [hf]
      | InvalidOffset => simp [hf]
      | Unsupported => simp [hf]

theorem read_vec_err_unchanged (fs : FileSystem) (fd : Nat) (dst : List Nat) (e : Error) :
    (fs.read_vec fd dst).1 = .error e → (fs.read_vec fd dst).2 = fs := by
  intro h
  unfold FileSystem.read_vec at h ⊢
  cases hg : fs.get_file fd with
  | error e' => simp [hg]
  | ok file =>
    simp only [hg] at h ⊢
    cases hr : readVecGo file fs.storage dst with
    | error e' => simp [hr]
    | ok pr => obtain ⟨n, file'⟩ := pr; simp [hr] at h

theorem read_vec_with_offset_err_unchanged (fs : FileSystem) (fd : Nat) (dst : List Nat)
    (offset : Nat) (e : Error) :
    (fs.read_vec_with_offset fd dst offset).1 = .error e →
      (fs.read_vec_with_offset fd dst offset).2 = fs := by
  intro h
  unfold FileSystem.read_vec_with_offset at h ⊢
  cases hg : fs.get_file fd with
  | error e' => simp [hg]
  | ok file =>
    simp only [hg] at h ⊢
    cases hr : readVecOffGo file fs.storage offset dst with
    | error e' => simp [hr]
    | ok n => simp [hr] at h

theorem write_vec_err_table (fs : FileSystem) (fd : Nat) (src : List (List Nat))
    (e : Error) :
    (fs.write_vec fd src).1 = .error e → (fs.write_vec fd src).2.fd_table = fs.fd_table := by
  intro h
  unfold FileSystem.write_vec at h ⊢
  cases hg : fs.get_file fd with
  | error e' => simp [hg]
  | ok file =>
    simp only [hg] at h ⊢
    rcases hw : writeVecGo file fs.storage src with ⟨r, st'⟩
    cases r with
    | error e' => rfl
    | ok pr => obtain ⟨n, file'⟩ := pr; simp [hw] at h

theorem write_vec_with_offset_err_table (fs : FileSystem) (fd : Nat)
    (src : List (List Nat)) (offset : Nat) (e : Error) :
    (fs.write_vec_with_offset fd src offset).1 = .error e →
      (fs.write_vec_with_offset fd src offset).2.fd_table = fs.fd_table := by
  intro h
  unfold FileSystem.write_vec_with_offset at h ⊢
  cases hg : fs.get_file fd with
  | error e' => simp [hg]
  | ok file =>
    simp only [hg] at h ⊢
    rcases hw : writeVecOffGo file fs.storage offset src with ⟨r, st'⟩
    cases r with
    | error e' => rfl
    | ok n => simp [hw] at h

/-- The write_vec loop on failure: some prefix of the buffers was fully
written (threading cursor and storage), and the final storage is
exactly the storage the failing buffer's transfer left behind — earlier
buffers' transfers are kept, nothing is rolled back. -/
theorem writeVecGo_err_take (e : Error) :
    ∀ (bufs : List (List Nat)) (f : File) (st : Storage),
      (writeVecGo f st bufs).1 = .error e →
      ∃ k b f' n st',
        bufs[k]? = some b ∧
        writeVecGo f st (bufs.take k) = (.ok (n, f'), st') ∧
        f'.write_with_cursor b st' = (.error e, (writeVecGo f st bufs).2) := by
  intro bufs
  induction bufs with
  | nil => intro f st h; simp [writeVecGo] at h
  | cons b bs ih =>
    intro f st h
    rcases hw : f.write_with_cursor b st with ⟨r, st₁⟩
    cases r with
    | error e' =>
      have he : e' = e := by
        unfold writeVecGo at h
        rw [hw] at h
        simpa using h
      subst he
      refine ⟨0, b, f, 0, st, by simp, rfl, ?_⟩
      have h2 : (writeVecGo f st (b :: bs)).2 = st₁ := by
        unfold writeVecGo
        rw [hw]
      rw [h2]
      exact hw
    | ok pr =>
      obtain ⟨n₁, f₁⟩ := pr
      have hstep : writeVecGo f st (b :: bs)
          = (match writeVecGo f₁ st₁ bs with
             | (.error e₂, st₂) => (.error e₂, st₂)
             | (.ok (m, f₂), st₂) => (.ok (n₁ + m, f₂), st₂)) := by
        conv_lhs => rw [writeVecGo]
        rw [hw]
      have hstep2 : ∀ k₀ : Nat, writeVecGo f st (b :: bs.take k₀)
          = (match writeVecGo f₁ st₁ (bs.take k₀) with
             | (.error e₂, st₂) => (.error e₂, st₂)
             | (.ok (m, f₂), st₂) => (.ok (n₁ + m, f₂), st₂)) := by
        intro k₀
        conv_lhs => rw [writeVecGo]
        rw [hw]
      have hrec : (writeVecGo f₁ st₁ bs).1 = .error e := by
        rw [hstep] at h
        rcases hg : writeVecGo f₁ st₁ bs with ⟨r₂, st₂⟩
        rw [hg] at h
        cases r₂ with
        | error e₂ => simpa using h
        | ok pr₂ => obtain ⟨m, f₂⟩ := pr₂; simp at h
      obtain ⟨k, b', f', n, st', hb, htake, hlast⟩ := ih f₁ st₁ hrec
      refine ⟨k + 1, b', f', n₁ + n, st', ?_, ?_, ?_⟩
      · simpa using hb
      · rw [List.take_succ_cons, hstep2 k, htake]
      · have h2 : (writeVecGo f st (b :: bs)).2 = (writeVecGo f₁ st₁ bs).2 := by
          rw [hstep]
          rcases hg : writeVecGo f₁ st₁ bs with ⟨r₂, st₂⟩
          cases r₂ with
          | error e₂ => rfl
          | ok pr₂ => obtain ⟨m, f₂⟩ := pr₂; rfl
        rw [h2]
        exact hlast

/-- The write_vec_with_offset loop on failure: some prefix of the
buffers was fully written (threading the storage; the handle itself is
never moved by offset writes), and the final storage is exactly the
storage the failing buffer's transfer left behind — earlier buffers'
transfers are kept, nothing is rolled back. -/
theorem writeVecOffGo_err_take (e : Error) (offset : Nat) :
    ∀ (bufs : List (List Nat)) (f : File) (st : Storage),
      (writeVecOffGo f st offset bufs).1 = .error e →
      ∃ k b n st',
        bufs[k]? = some b ∧
        writeVecOffGo f st offset (bufs.take k) = (.ok n, st') ∧
        f.write_with_offset offset b st' = (.error e, (writeVecOffGo f st offset bufs).2) := by
  intro bufs
  induction bufs with
  | nil => intro f st h; simp [writeVecOffGo] at h
  | cons b bs ih =>
    intro f st h
    rcases hw : f.write_with_offset offset b st with ⟨r, st₁⟩
    cases r with
    | error e' =>
      have he : e' = e := by
        unfold writeVecOffGo at h
        rw [hw] at h
        simpa using h
      subst he
      refine ⟨0, b, 0, st, by simp, rfl, ?_⟩
      have h2 : (writeVecOffGo f st offset (b :: bs)).2 = st₁ := by
        unfold writeVecOffGo
        rw [hw]
      rw [h2]
      exact hw
    | ok n₁ =>
      have hstep : writeVecOffGo f st offset (b :: bs)
          = (match writeVecOffGo f st₁ offset bs with
             | (.error e₂, st₂) => (.error e₂, st₂)
             | (.ok m, st₂) => (.ok (n₁ + m), st₂)) := by
        conv_lhs => rw [writeVecOffGo]
        rw [hw]
      have hstep2 : ∀ k₀ : Nat, writeVecOffGo f st offset (b :: bs.take k₀)
          = (match writeVecOffGo f st₁ offset (bs.take k₀) with
             | (.error e₂, st₂) => (.error e₂, st₂)
             | (.ok m, st₂) => (.ok (n₁ + m), st₂)) := by
        intro k₀
        conv_lhs => rw [writeVecOffGo]
        rw [hw]
      have hrec : (writeVecOffGo f st₁ offset bs).1 = .error e := by
        rw [hstep] at h
        rcases hg : writeVecOffGo f st₁ offset bs with ⟨r₂, st₂⟩
        rw [hg] at h
        cases r₂ with
        | error e₂ => simpa using h
        | ok m => simp at h
      obtain ⟨k, b', n, st', hb, htake, hlast⟩ := ih f st₁ hrec
      refine ⟨k + 1, b', n₁ + n, st', ?_, ?_, ?_⟩
      · simpa using hb
      · rw [List.take_succ_cons, hstep2 k, htake]
      · have h2 : (writeVecOffGo f st offset (b :: bs)).2
            = (writeVecOffGo f st₁ offset bs).2 := by
          rw [hstep]
          rcases hg : writeVecOffGo f st₁ offset bs with ⟨r₂, st₂⟩
          cases r₂ with
          | error e₂ => rfl
          | ok m => rfl
        rw [h2]
        exact hlast

/-- C3: every modelled public mutating operation either fully commits
or fails with the state exactly as before — except the vectored I/O
loops, where on failure the descriptor table (the handle, hence the
persisted cursor) is unchanged while transfers already performed for
earlier buffers remain applied: both the write_vec loop's and the
write_vec_with_offset loop's failure state is precisely the storage
left after fully writing some buffer prefix plus the failing
transfer's own effect (last two conjuncts); read_vec's transfers go to
caller memory, modelled as return values. -/
theorem c3_atomic_commit_or_unchanged (fs : FileSystem) (fd len node t offset : Nat)
    (src : List Nat) (bufs : List (List Nat)) (dsts : List Nat) (delta : Int)
    (w : Whence) (path : List Nat) (stat : FdStat) (flags : OpenFlags)
    (md : Metadata) (e : Error) :
    ((fs.read fd len).1 = .error e → (fs.read fd len).2 = fs) ∧
    ((fs.write fd src).1 = .error e → (fs.write fd src).2 = fs) ∧
    ((fs.seek fd delta w).1 = .error e → (fs.seek fd delta w).2 = fs) ∧
    (fs.tell fd).2 = fs ∧
    ((fs.close fd).1 = .error e → (fs.close fd).2 = fs) ∧
    ((fs.set_metadata fd md).1 = .error e → (fs.set_metadata fd md).2 = fs) ∧
    ((fs.set_accessed_time fd t).1 = .error e → (fs.set_accessed_time fd t).2 = fs) ∧
    ((fs.set_modified_time fd t).1 = .error e → (fs.set_modified_time fd t).2 = fs) ∧
    ((fs.set_stat fd stat).1 = .error e → (fs.set_stat fd stat).2 = fs) ∧
    ((fs.open node stat flags).1 = .error e → (fs.open node stat flags).2 = fs) ∧
    ((fs.create_file fd path stat).1 = .error e → (fs.create_file fd path stat).2 = fs) ∧
    ((fs.create_dir fd path stat).1 = .error e → (fs.create_dir fd path stat).2 = fs) ∧
    ((fs.remove_file fd path).1 = .error e → (fs.remove_file fd path).2 = fs) ∧
    ((fs.open_or_create fd path stat flags).1 = .error e →
      (fs.open_or_create fd path stat flags).2 = fs) ∧
    ((fs.read_vec fd dsts).1 = .error e → (fs.read_vec fd dsts).2 = fs) ∧
    ((fs.read_vec_with_offset fd dsts offset).1 = .error e →
      (fs.read_vec_with_offset fd dsts offset).2 = fs) ∧
    ((fs.write_vec fd bufs).1 = .error e →
      (fs.write_vec fd bufs).2.fd_table = fs.fd_table) ∧
    ((fs.write_vec_with_offset fd bufs offset).1 = .error e →
      (fs.write_vec_with_offset fd bufs offset).2.fd_table = fs.fd_table) ∧
    (∀ (f : File) (st : Storage), (writeVecGo f st bufs).1 = .error e →
      ∃ k b f' n st',
        bufs[k]? = some b ∧
        writeVecGo f st (bufs.take k) = (.ok (n, f'), st') ∧
        f'.write_with_cursor b st' = (.error e, (writeVecGo f st bufs).2)) ∧
    (∀ (f : File) (st : Storage), (writeVecOffGo f st offset bufs).1 = .error e →
      ∃ k b n st',
        bufs[k]? = some b ∧
        writeVecOffGo f st offset (bufs.take k) = (.ok n, st') ∧
        f.write_with_offset offset b st'
          = (.error e, (writeVecOffGo f st offset bufs).2)) :=
  ⟨read_err_unchanged fs fd len e,
   write_err_unchanged fs fd src e,
   seek_err_unchanged fs fd delta w e,
   tell_snd fs fd,
   close_err_unchanged fs fd e,
   set_metadata_err_unchanged fs fd md e,
   set_accessed_time_err_unchanged fs fd t e,
   set_modified_time_err_unchanged fs fd t e,
   set_stat_err_unchanged fs fd stat e,
   open_err_unchanged fs node stat flags e,
   create_file_err_unchanged fs fd path stat e,
   create_dir_err_unchanged fs fd path stat e,
   remove_file_err_unchanged fs fd path e,
   open_or_create_err_unchanged fs fd path stat flags e,
   read_vec_err_unchanged fs fd dsts e,
   read_vec_with_offset_err_unchanged fs fd dsts offset e,
   write_vec_err_table fs fd bufs e,
   write_vec_with_offset_err_table fs fd bufs offset e,
   fun f st h => writeVecGo_err_take e bufs f st h,
   fun f st h => writeVecOffGo_err_take e offset bufs f st h⟩

/-- Witness for C3 at concrete failing calls: unknown-fd failures leave
the empty-table system untouched, and a write_vec loop failing on its
first buffer exhibits the zero-length committed prefix. -/
theorem c3_witness :
    (fsE.read 0 1).2 = fsE ∧
    (fsE.write 0 [7]).2 = fsE ∧
    (fsE.seek 0 0 .Start).2 = fsE ∧
    (fsE.close 0).2 = fsE ∧
    (fsE.open 5 statZ ⟨false, false, false, false⟩).2 = fsE ∧
    (fsE.open_or_create 0 [97] statZ ⟨false, false, false, false⟩).2 = fsE ∧
    (fsE.write_vec 0 [[7]]).2.fd_table = fsE.fd_table ∧
    (fsE.write_vec_with_offset 0 [[7]] 0).2.fd_table = fsE.fd_table ∧
    (∃ k b f' n st',
      ([[7]] : List (List Nat))[k]? = some b ∧
      writeVecGo ⟨9, 0, statZ⟩ stZ (([[7]] : List (List Nat)).take k) = (.ok (n, f'), st') ∧
      f'.write_with_cursor b st'
        = (.error .NotFound, (writeVecGo ⟨9, 0, statZ⟩ stZ [[7]]).2)) ∧
    (∃ k b n st',
      ([[7]] : List (List Nat))[k]? = some b ∧
      writeVecOffGo ⟨9, 0, statZ⟩ stZ 0 (([[7]] : List (List Nat)).take k)
        = (.ok n, st') ∧
      (⟨9, 0, statZ⟩ : File).write_with_offset 0 b st'
        = (.error .NotFound, (writeVecOffGo ⟨9, 0, statZ⟩ stZ 0 [[7]]).2)) := by
  obtain ⟨a1, a2, a3, a4, a5, a6, a7, a8, a9, a10, a11, a12, a13, a14, a15, a16, a17,
    a18, a19, a20⟩ := c3_atomic_commit_or_unchanged fsE 0 1 5 0 0 [7] [[7]] [1] 0 .Start [97]
    statZ ⟨false, false, false, false⟩ fileMdZ .NotFound
  exact ⟨a1 rfl, a2 rfl, a3 rfl, a5 rfl, a10 rfl, a14 rfl, a17 rfl, a18 rfl,
    a19 ⟨9, 0, statZ⟩ stZ rfl, a20 ⟨9, 0, statZ⟩ stZ rfl⟩
